import Mathlib

/-!
The shading-language program assembler (`gsk/gskslprogram.c`).

A shallow embedding of the top-level declaration resolver, the parse loop, the
textual printer and the binary emission of `gskslprogram.c`, with the
properties of its specification stated and proved over the embedding.

The C code works on heap objects through pointers. Here every function takes
the objects it can change as arguments and returns their new state. The
collaborators that live in other files (decoration parser, type parser,
function parser, scope, the AST printers, the module writer) are fields of a
record of functions, so every theorem holds for each possible behaviour of
them. Where a property needs to know what the scope or the writer does, they
are taken as the specification describes them.
-/

namespace GskSl

/-! ## Tokens and the token source -/

/-- Token kinds that `gskslprogram.c` tests for; every other kind of the
tokenizer is `OTHER`, told apart by its code. -/
inductive GskSlTokenType where
  | GSK_SL_TOKEN_EOF
  | GSK_SL_TOKEN_SEMICOLON
  | GSK_SL_TOKEN_IDENTIFIER
  | GSK_SL_TOKEN_LEFT_PAREN
  | OTHER (code : Nat)
  deriving DecidableEq, Repr

/-- Modelled from the spec: a lexical token, of which the assembler reads the
kind and, for an identifier, the text (`token->str`). -/
structure GskSlToken where
  type : GskSlTokenType
  str : String
  deriving DecidableEq, Repr

/-- Modelled from the spec: the token source (`GskSlPreprocessor`), "a
positionable token stream exposing peek and consume, plus an end-of-input
sentinel token", with its diagnostic sink. `tokens` are the tokens not yet
consumed; past the last one the source reports end-of-input. `errors` are the
diagnostics reported so far, oldest first. -/
structure GskSlPreprocessor where
  tokens : List GskSlToken
  errors : List String
  deriving DecidableEq, Repr

/-- The end-of-input sentinel. -/
def eof_token : GskSlToken := ⟨.GSK_SL_TOKEN_EOF, ""⟩

/-- Modelled from the spec: peek, the next token without consuming it. -/
def gsk_sl_preprocessor_get (preproc : GskSlPreprocessor) : GskSlToken :=
  preproc.tokens.headD eof_token

/-- Modelled from the spec: consume, advance the stream by one token. The C
function also takes the consumer object, used for diagnostics context only. -/
def gsk_sl_preprocessor_consume (preproc : GskSlPreprocessor) : GskSlPreprocessor :=
  { preproc with tokens := preproc.tokens.tail }

/-- Modelled from the spec: report one diagnostic to the sink. -/
def gsk_sl_preprocessor_error (preproc : GskSlPreprocessor) (message : String) :
    GskSlPreprocessor :=
  { preproc with errors := preproc.errors ++ [message] }

/-- The test `gsk_sl_token_is (token, type)`. -/
def gsk_sl_token_is (token : GskSlToken) (type : GskSlTokenType) : Bool :=
  decide (token.type = type)

/-! ## The data the assembler builds -/

/-- Decoration kinds; the assembler reads `GSK_SL_DECORATION_CALLER_ACCESS` only. -/
inductive GskSlDecoration where
  | GSK_SL_DECORATION_CALLER_ACCESS
  | OTHER (code : Nat)
  deriving DecidableEq, Repr

/-- One entry of `decoration.values[]`. -/
structure GskSlDecorationValue where
  value : Int
  deriving DecidableEq, Repr

/-- Modelled from the spec: the decoration set of one declaration, "a
structured bag of qualifier values", read as `decoration.values[kind].value`. -/
structure GskSlDecorations where
  values : GskSlDecoration → GskSlDecorationValue

/-- Modelled from the spec: a usage-site type, "a base type combined with
qualifiers (mutability, access)". -/
structure GskSlPointerType (τ : Type) where
  type : τ
  mutability : Bool
  access : Int
  deriving DecidableEq, Repr

/-- The constructor call `gsk_sl_pointer_type_new (type, mutability, access)`. -/
def gsk_sl_pointer_type_new {τ : Type} (type : τ) (mutability : Bool) (access : Int) :
    GskSlPointerType τ :=
  ⟨type, mutability, access⟩

/-- Modelled from the spec: a Variable "pairs a usage-site type with an
optional name"; `none` is the `NULL` name of an anonymous variable. -/
structure GskSlVariable (τ : Type) where
  type : GskSlPointerType τ
  name : Option String
  deriving DecidableEq, Repr

/-- The constructor call `gsk_sl_variable_new (type, name)`. -/
def gsk_sl_variable_new {τ : Type} (type : GskSlPointerType τ) (name : Option String) :
    GskSlVariable τ :=
  ⟨type, name⟩

/-- The `struct _GskSlProgram`: the root scope and the two `GSList`s, in list
order; `vars` is the C field `variables`, a reserved word here. `σ` is the
state of a scope object, `τ` a base type, `φ` a function. -/
structure GskSlProgram (σ τ φ : Type) where
  scope : σ
  vars : List (GskSlVariable τ)
  functions : List φ

/-- The program that `gsk_sl_program_init` leaves: a fresh root scope
(`gsk_sl_scope_new (NULL, NULL)`, passed in) and two empty lists. -/
def gsk_sl_program_init {σ τ φ : Type} (fresh_scope : σ) : GskSlProgram σ τ φ :=
  ⟨fresh_scope, [], []⟩

/-! ## The collaborators of the parser -/

/-- What `gsk_sl_decoration_list_parse` hands back: its return value, the
decoration set it filled in, and the token source as it left it. -/
structure DecorationResult where
  success : Bool
  decoration : GskSlDecorations
  preproc : GskSlPreprocessor

/-- What `gsk_sl_type_new_parse` hands back: the type, `none` for `NULL`, and
the token source as it left it. -/
structure TypeResult (τ : Type) where
  type : Option τ
  preproc : GskSlPreprocessor

/-- What `gsk_sl_function_new_parse` hands back: the function, `none` for
`NULL`, and the token source as it left it. -/
structure FunctionResult (φ : Type) where
  function : Option φ
  preproc : GskSlPreprocessor

/-- The functions of other files that the parser calls, with the arguments the
C code passes. The parsers read the scope and advance (and report to) the token
source; `gsk_sl_scope_add_variable` is the one call that changes a scope, and
it returns nothing to its caller. -/
structure ParseCollaborators (σ τ φ : Type) where
  gsk_sl_decoration_list_parse : σ → GskSlPreprocessor → DecorationResult
  gsk_sl_type_new_parse : GskSlPreprocessor → TypeResult τ
  gsk_sl_function_new_parse : σ → GskSlPreprocessor → τ → String → FunctionResult φ
  gsk_sl_scope_add_variable : σ → GskSlVariable τ → σ

/-- The return value of a parsing function of the assembler together with the
state of the objects it was given pointers to: the program, the scope object
and the token source. -/
structure ParseResult (σ τ φ : Type) where
  success : Bool
  program : GskSlProgram σ τ φ
  scope : σ
  preproc : GskSlPreprocessor

variable {σ τ φ : Type}

/-! ## The parser -/

/-- The function `gsk_sl_program_parse_variable` (lines 69-90). -/
def gsk_sl_program_parse_variable (env : ParseCollaborators σ τ φ)
    (program : GskSlProgram σ τ φ) (scope : σ) (preproc : GskSlPreprocessor)
    (type : GskSlPointerType τ) (name : String) : ParseResult σ τ φ :=
  let token := gsk_sl_preprocessor_get preproc
  if !gsk_sl_token_is token .GSK_SL_TOKEN_SEMICOLON then
    ⟨false, program, scope, preproc⟩
  else
    let preproc := gsk_sl_preprocessor_consume preproc
    let var := gsk_sl_variable_new type (some name)
    let program := { program with vars := program.vars ++ [var] }
    let scope := env.gsk_sl_scope_add_variable scope var
    ⟨true, program, scope, preproc⟩

/-- The function `gsk_sl_program_parse_declaration` (lines 92-163). A
`gboolean` is `TRUE` or `FALSE`, so `success &= x` is the AND of the two. -/
def gsk_sl_program_parse_declaration (env : ParseCollaborators σ τ φ)
    (program : GskSlProgram σ τ φ) (scope : σ) (preproc : GskSlPreprocessor) :
    ParseResult σ τ φ :=
  let d := env.gsk_sl_decoration_list_parse scope preproc
  let success := d.success
  let decoration := d.decoration
  let t := env.gsk_sl_type_new_parse d.preproc
  let preproc := t.preproc
  match t.type with
  | none => ⟨false, program, scope, gsk_sl_preprocessor_consume preproc⟩
  | some type =>
    let token := gsk_sl_preprocessor_get preproc
    if gsk_sl_token_is token .GSK_SL_TOKEN_SEMICOLON then
      if success then
        let ptype := gsk_sl_pointer_type_new type false
          (decoration.values .GSK_SL_DECORATION_CALLER_ACCESS).value
        let var := gsk_sl_variable_new ptype none
        let program := { program with vars := program.vars ++ [var] }
        ⟨success, program, scope, gsk_sl_preprocessor_consume preproc⟩
      else
        ⟨success, program, scope, preproc⟩
    else if !gsk_sl_token_is token .GSK_SL_TOKEN_IDENTIFIER then
      ⟨false, program, scope, gsk_sl_preprocessor_error preproc "Expected a variable name"⟩
    else
      let name := token.str
      let preproc := gsk_sl_preprocessor_consume preproc
      let token := gsk_sl_preprocessor_get preproc
      if gsk_sl_token_is token .GSK_SL_TOKEN_LEFT_PAREN then
        let f := env.gsk_sl_function_new_parse scope preproc type name
        match f.function with
        | some function =>
          ⟨success, { program with functions := program.functions ++ [function] }, scope,
            f.preproc⟩
        | none => ⟨false, program, scope, f.preproc⟩
      else
        let pointer_type := gsk_sl_pointer_type_new type false
          (decoration.values .GSK_SL_DECORATION_CALLER_ACCESS).value
        let v := gsk_sl_program_parse_variable env program scope preproc pointer_type name
        ⟨success && v.success, v.program, v.scope, v.preproc⟩

/-- One pass through the body of the `for` loop of `gsk_sl_program_parse`
(line 176): the resolver is called with `program->scope` as its scope, so what
it does to that scope object is what the program's scope becomes. The first
component is the resolver's return value. -/
def gsk_sl_program_parse_body (env : ParseCollaborators σ τ φ)
    (program : GskSlProgram σ τ φ) (preproc : GskSlPreprocessor) :
    Bool × GskSlProgram σ τ φ × GskSlPreprocessor :=
  let r := gsk_sl_program_parse_declaration env program program.scope preproc
  (r.success, { r.program with scope := r.scope }, r.preproc)

/-- The `for` loop of `gsk_sl_program_parse` (lines 172-177), with `success`
as the accumulator. `fuel` bounds the number of loop tests; `none` means the
loop was still running when the fuel ran out. -/
def gsk_sl_program_parse_loop (env : ParseCollaborators σ τ φ) :
    Nat → Bool → GskSlProgram σ τ φ → GskSlPreprocessor →
      Option (Bool × GskSlProgram σ τ φ × GskSlPreprocessor)
  | 0, _, _, _ => none
  | fuel + 1, success, program, preproc =>
    let token := gsk_sl_preprocessor_get preproc
    if gsk_sl_token_is token .GSK_SL_TOKEN_EOF then
      some (success, program, preproc)
    else
      let b := gsk_sl_program_parse_body env program preproc
      gsk_sl_program_parse_loop env fuel (success && b.1) b.2.1 b.2.2

/-- The function `gsk_sl_program_parse` (lines 165-180): `success` starts as
`TRUE`. -/
def gsk_sl_program_parse (env : ParseCollaborators σ τ φ) (fuel : Nat)
    (program : GskSlProgram σ τ φ) (preproc : GskSlPreprocessor) :
    Option (Bool × GskSlProgram σ τ φ × GskSlPreprocessor) :=
  gsk_sl_program_parse_loop env fuel true program preproc

/-- The first `n` resolver invocations of the loop, run one after the other
without the end-of-input test: the values they returned, in order, and the
program and token source after the last of them. -/
def resolver_invocations (env : ParseCollaborators σ τ φ) :
    Nat → GskSlProgram σ τ φ → GskSlPreprocessor →
      List Bool × GskSlProgram σ τ φ × GskSlPreprocessor
  | 0, program, preproc => ([], program, preproc)
  | n + 1, program, preproc =>
    let b := gsk_sl_program_parse_body env program preproc
    let rest := resolver_invocations env n b.2.1 b.2.2
    (b.1 :: rest.1, rest.2.1, rest.2.2)

/-- The loop test of `gsk_sl_program_parse`: the next token is end-of-input. -/
def at_eof (preproc : GskSlPreprocessor) : Bool :=
  gsk_sl_token_is (gsk_sl_preprocessor_get preproc) .GSK_SL_TOKEN_EOF

/-- What the decoration parser hands back when the resolver calls it, first
thing, with the scope and token source the resolver was given (line 103). -/
def decoration_parsed (env : ParseCollaborators σ τ φ) (scope : σ)
    (preproc : GskSlPreprocessor) : DecorationResult :=
  env.gsk_sl_decoration_list_parse scope preproc

/-- What the type parser hands back when the resolver calls it on the token
source as the decoration parser left it (line 107). -/
def type_parsed (env : ParseCollaborators σ τ φ) (scope : σ)
    (preproc : GskSlPreprocessor) : TypeResult τ :=
  env.gsk_sl_type_new_parse (decoration_parsed env scope preproc).preproc

/-- The caller-access value of a decoration set, as lines 119 and 157 read it. -/
def caller_access (decoration : GskSlDecorations) : Int :=
  (decoration.values .GSK_SL_DECORATION_CALLER_ACCESS).value

/-! ## A small set of collaborators to run the parser on

Scopes are the list of the variables registered so far, base types and
functions are known by their name. -/

/-- Example decoration parser: the qualifier token `OTHER 1` is consumed and
gives caller access 1; the token `OTHER 9` is consumed, reported and makes the
list fail; any other token is left alone and gives caller access 0. -/
def example_decoration_list_parse (_scope : List (GskSlVariable String))
    (preproc : GskSlPreprocessor) : DecorationResult :=
  match (gsk_sl_preprocessor_get preproc).type with
  | .OTHER 1 => ⟨true, ⟨fun _ => ⟨1⟩⟩, gsk_sl_preprocessor_consume preproc⟩
  | .OTHER 9 =>
    ⟨false, ⟨fun _ => ⟨0⟩⟩,
      gsk_sl_preprocessor_consume (gsk_sl_preprocessor_error preproc "Unknown decoration")⟩
  | _ => ⟨true, ⟨fun _ => ⟨0⟩⟩, preproc⟩

/-- Example type parser: a type keyword is the token `OTHER 2`, whose text
names the type; on any other token it reports and consumes nothing. -/
def example_type_new_parse (preproc : GskSlPreprocessor) : TypeResult String :=
  match (gsk_sl_preprocessor_get preproc).type with
  | .OTHER 2 => ⟨some (gsk_sl_preprocessor_get preproc).str, gsk_sl_preprocessor_consume preproc⟩
  | _ => ⟨none, gsk_sl_preprocessor_error preproc "Expected a type"⟩

/-- Example function parser: after the left parenthesis it wants the token
`OTHER 3` (a right parenthesis followed by an empty body). -/
def example_function_new_parse (_scope : List (GskSlVariable String))
    (preproc : GskSlPreprocessor) (_type : String) (name : String) : FunctionResult String :=
  let p := gsk_sl_preprocessor_consume preproc
  match (gsk_sl_preprocessor_get p).type with
  | .OTHER 3 => ⟨some name, gsk_sl_preprocessor_consume p⟩
  | _ => ⟨none, gsk_sl_preprocessor_error p "Expected a closing parenthesis"⟩

/-- Example collaborators. The scope records every variable passed to
`gsk_sl_scope_add_variable`, in call order. -/
def example_env :
    ParseCollaborators (List (GskSlVariable String)) String String where
  gsk_sl_decoration_list_parse := example_decoration_list_parse
  gsk_sl_type_new_parse := example_type_new_parse
  gsk_sl_function_new_parse := example_function_new_parse
  gsk_sl_scope_add_variable := fun scope v => scope ++ [v]

/-- A fresh example program. -/
def example_program : GskSlProgram (List (GskSlVariable String)) String String :=
  gsk_sl_program_init []

/-- The token `int`. -/
def tok_int : GskSlToken := ⟨.OTHER 2, "int"⟩

/-- The token `;`. -/
def tok_semicolon : GskSlToken := ⟨.GSK_SL_TOKEN_SEMICOLON, ";"⟩

/-- The token `(`. -/
def tok_left_paren : GskSlToken := ⟨.GSK_SL_TOKEN_LEFT_PAREN, "("⟩

/-- The token standing for `) { }`. -/
def tok_close : GskSlToken := ⟨.OTHER 3, ")"⟩

/-- A qualifier token that the example decoration parser accepts. -/
def tok_qualifier : GskSlToken := ⟨.OTHER 1, "in"⟩

/-- A token that makes the example decoration parser fail. -/
def tok_bad_decoration : GskSlToken := ⟨.OTHER 9, "layout"⟩

/-- A token that starts nothing (`=`). -/
def tok_equal : GskSlToken := ⟨.OTHER 7, "="⟩

/-- An identifier token. -/
def tok_ident (name : String) : GskSlToken := ⟨.GSK_SL_TOKEN_IDENTIFIER, name⟩

/-- A token source over the given tokens with an empty diagnostic sink. -/
def stream (tokens : List GskSlToken) : GskSlPreprocessor := ⟨tokens, []⟩

/-! ## Progress of the collaborators -/

/-- The assumptions on the parsers of other files under which the loop of
`gsk_sl_program_parse` is shown to end: none of them moves the token source
backwards (it never has more tokens left than before), and the type parser
takes at least one token when it returns a type. -/
structure Progressing (env : ParseCollaborators σ τ φ) : Prop where
  decoration_le : ∀ scope preproc,
    (env.gsk_sl_decoration_list_parse scope preproc).preproc.tokens.length
      ≤ preproc.tokens.length
  type_le : ∀ preproc,
    (env.gsk_sl_type_new_parse preproc).preproc.tokens.length ≤ preproc.tokens.length
  type_lt : ∀ preproc T, (env.gsk_sl_type_new_parse preproc).type = some T →
    (env.gsk_sl_type_new_parse preproc).preproc.tokens.length < preproc.tokens.length
  function_le : ∀ scope preproc T name,
    (env.gsk_sl_function_new_parse scope preproc T name).preproc.tokens.length
      ≤ preproc.tokens.length

/-! ## The printer -/

/-- The AST printers of other files, which `gsk_sl_program_print` calls with
the buffer: each returns the buffer as it leaves it. -/
structure PrintCollaborators (τ φ : Type) where
  gsk_sl_variable_print : GskSlVariable τ → String → String
  gsk_sl_function_print : φ → String → String

/-- The call `g_string_append (string, text)`. -/
def g_string_append (string text : String) : String :=
  string ++ text

/-- The first loop of `gsk_sl_program_print` (lines 191-195), from the list
node `l` on. -/
def gsk_sl_program_print_variables (env : PrintCollaborators τ φ) :
    List (GskSlVariable τ) → String → String
  | [], string => string
  | v :: l, string =>
    gsk_sl_program_print_variables env l
      (g_string_append (env.gsk_sl_variable_print v string) ";\n")

/-- The second loop of `gsk_sl_program_print` (lines 197-202), from the list
node `l` on. `at_head` says that `l == program->functions` (list nodes are
distinct, so this holds at the first node only), `vars` is `program->variables`,
which is `NULL` exactly when the list is empty. -/
def gsk_sl_program_print_functions (env : PrintCollaborators τ φ)
    (vars : List (GskSlVariable τ)) : Bool → List φ → String → String
  | _, [], string => string
  | at_head, f :: l, string =>
    let string :=
      if !at_head || !vars.isEmpty then g_string_append string "\n" else string
    gsk_sl_program_print_functions env vars false l (env.gsk_sl_function_print f string)

/-- The function `gsk_sl_program_print` (lines 182-203). -/
def gsk_sl_program_print (env : PrintCollaborators τ φ) (program : GskSlProgram σ τ φ)
    (string : String) : String :=
  gsk_sl_program_print_functions env program.vars true program.functions
    (gsk_sl_program_print_variables env program.vars string)

/-- The separator that the specification puts before the function of index `j`
(counted from 0) of a program with `n` variables: a line break, except before
the very first function when no variable precedes it. -/
def separator (n j : Nat) : String :=
  if n = 0 ∧ j = 0 then "" else "\n"

/-- The text that the specification says is appended for variables `vars` and
functions `functions`, whose own printed forms are `vtext` and `ftext`: every
variable followed by a semicolon and a line break, then every function
preceded by its separator. -/
def printed_text (vtext : GskSlVariable τ → String) (ftext : φ → String)
    (vars : List (GskSlVariable τ)) (functions : List φ) : String :=
  String.join (vars.map fun v => vtext v ++ ";\n")
    ++ String.join (functions.enum.map fun jf => separator vars.length jf.1 ++ ftext jf.2)

/-- Example printers: a variable prints as its type and name, a function as
its return type and name. -/
def example_printers : PrintCollaborators String String where
  gsk_sl_variable_print := fun v s => s ++ (v.type.type ++ " " ++ v.name.getD "")
  gsk_sl_function_print := fun f s => s ++ ("void " ++ f ++ " ()\n")

/-! ## The scope, as the specification describes it -/

/-- Modelled from the spec: the Scope (`gskslscope.c` is not part of the
sources at hand), "a symbol table mapping names to variables" that supports
"insertion with duplicate-name diagnostics". `table` holds the registered
variables in registration order, each under its own name; `failures` holds the
variables whose registration was refused and reported because their name was
taken, in the order of the attempts. -/
structure GskSlScope (τ : Type) where
  table : List (GskSlVariable τ)
  failures : List (GskSlVariable τ)
  deriving DecidableEq, Repr

/-- Modelled from the spec: the fresh root scope of `gsk_sl_scope_new (NULL, NULL)`. -/
def gsk_sl_scope_new : GskSlScope τ :=
  ⟨[], []⟩

/-- Modelled from the spec: the variable registered in the scope under `name`. -/
def gsk_sl_scope_lookup_variable (scope : GskSlScope τ) (name : String) :
    Option (GskSlVariable τ) :=
  scope.table.find? fun v => v.name == some name

/-- Modelled from the spec: insertion with duplicate-name diagnostics. A
variable whose name is already taken is reported as a failure and the table is
left as it was; any other variable is registered. -/
def gsk_sl_scope_add_variable (scope : GskSlScope τ) (var : GskSlVariable τ) :
    GskSlScope τ :=
  if scope.table.any (fun v => v.name == var.name) then
    { scope with failures := scope.failures ++ [var] }
  else
    { scope with table := scope.table ++ [var] }

/-- Collaborators whose scope is the one modelled from the spec: the parsers
of `env`, with `gsk_sl_scope_add_variable` as the scope's insertion. -/
def with_modelled_scope (env : ParseCollaborators (GskSlScope τ) τ φ) :
    ParseCollaborators (GskSlScope τ) τ φ :=
  { env with gsk_sl_scope_add_variable := gsk_sl_scope_add_variable }

/-- A variable that has a name. -/
def is_named (v : GskSlVariable τ) : Bool :=
  v.name.isSome

/-- The relation between the variable sequence of a program and its root
scope: the scope is what a fresh scope becomes when exactly the named variables
of the sequence are passed to add-variable, in sequence order; so the variable
registered under a name is the first variable of the sequence with that name,
and a variable without name is neither registered nor among the failures. -/
def ScopeFollowsSequence (program : GskSlProgram (GskSlScope τ) τ φ) : Prop :=
  program.scope
      = (program.vars.filter is_named).foldl gsk_sl_scope_add_variable gsk_sl_scope_new
  ∧ (∀ name, gsk_sl_scope_lookup_variable program.scope name
      = program.vars.find? fun v => v.name == some name)
  ∧ (∀ v ∈ program.vars, v.name = none →
      v ∉ program.scope.table ∧ v ∉ program.scope.failures)

/-- The token source holds, at its front, a named variable declaration
`T name ;` whose decoration parse succeeds: it is not at end-of-input, the
decoration parser succeeds, the type parser returns `T`, and the next two
tokens are the identifier `name` and a semicolon. -/
def NamedVariableDeclaration (env : ParseCollaborators σ τ φ) (scope : σ)
    (preproc : GskSlPreprocessor) (T : τ) (name : String) : Prop :=
  at_eof preproc = false
  ∧ (decoration_parsed env scope preproc).success = true
  ∧ (type_parsed env scope preproc).type = some T
  ∧ gsk_sl_preprocessor_get (type_parsed env scope preproc).preproc
      = ⟨.GSK_SL_TOKEN_IDENTIFIER, name⟩
  ∧ (gsk_sl_preprocessor_get
        (gsk_sl_preprocessor_consume (type_parsed env scope preproc).preproc)).type
      = .GSK_SL_TOKEN_SEMICOLON

/-- The Variable that lines 157-158 and 84 build for the declaration
`T name ;` at the front of the token source. -/
def declared_variable (env : ParseCollaborators σ τ φ) (scope : σ)
    (preproc : GskSlPreprocessor) (T : τ) (name : String) : GskSlVariable τ :=
  gsk_sl_variable_new
    (gsk_sl_pointer_type_new T false
      (caller_access (decoration_parsed env scope preproc).decoration))
    (some name)

/-- The token source past the declaration `T name ;` at its front: as the type
parser left it, with the identifier and the semicolon consumed. -/
def after_named_variable (env : ParseCollaborators σ τ φ) (scope : σ)
    (preproc : GskSlPreprocessor) : GskSlPreprocessor :=
  gsk_sl_preprocessor_consume
    (gsk_sl_preprocessor_consume (type_parsed env scope preproc).preproc)

/-- The example parsers with the scope modelled from the spec. -/
def example_scope_env : ParseCollaborators (GskSlScope String) String String where
  gsk_sl_decoration_list_parse := fun _ preproc => example_decoration_list_parse [] preproc
  gsk_sl_type_new_parse := example_type_new_parse
  gsk_sl_function_new_parse := fun _ preproc type name =>
    example_function_new_parse [] preproc type name
  gsk_sl_scope_add_variable := gsk_sl_scope_add_variable

/-- The token `float`. -/
def tok_float : GskSlToken := ⟨.OTHER 2, "float"⟩

/-! ## The binary emission -/

/-- The functions of other files that the binary emission calls, with the
arguments the C code passes; `ω` is the state of the writer object, `β` the
serialized module. The calls that return a `guint32` identifier return it
together with the writer as they leave it. -/
structure SpvCollaborators (ω τ φ β : Type) where
  gsk_spv_writer_new : ω
  gsk_spv_writer_get_id_for_variable : ω → GskSlVariable τ → Nat × ω
  gsk_sl_function_write_spv : φ → ω → Nat × ω
  gsk_sl_function_get_name : φ → String
  gsk_spv_writer_set_entry_point : ω → Nat → ω
  gsk_spv_writer_write : ω → β

/-- The comparison `g_str_equal (a, b)`. -/
def g_str_equal (a b : String) : Bool :=
  decide (a = b)

/-- The first loop of `gsk_sl_program_write_spv` (lines 211-212), from the list
node `l` on; the identifier that the writer returns is not used. -/
def gsk_sl_program_write_spv_variables {ω β : Type} (env : SpvCollaborators ω τ φ β) :
    List (GskSlVariable τ) → ω → ω
  | [], writer => writer
  | v :: l, writer =>
    gsk_sl_program_write_spv_variables env l
      (env.gsk_spv_writer_get_id_for_variable writer v).2

/-- The second loop of `gsk_sl_program_write_spv` (lines 214-220), from the
list node `l` on. -/
def gsk_sl_program_write_spv_functions {ω β : Type} (env : SpvCollaborators ω τ φ β) :
    List φ → ω → ω
  | [], writer => writer
  | f :: l, writer =>
    let r := env.gsk_sl_function_write_spv f writer
    let id := r.1
    let writer := r.2
    let writer :=
      if g_str_equal (env.gsk_sl_function_get_name f) "main" then
        env.gsk_spv_writer_set_entry_point writer id
      else writer
    gsk_sl_program_write_spv_functions env l writer

/-- The function `gsk_sl_program_write_spv` (lines 205-221). -/
def gsk_sl_program_write_spv {ω β : Type} (env : SpvCollaborators ω τ φ β)
    (program : GskSlProgram σ τ φ) (writer : ω) : ω :=
  gsk_sl_program_write_spv_functions env program.functions
    (gsk_sl_program_write_spv_variables env program.vars writer)

/-- The function `gsk_sl_program_to_spirv` (lines 223-239). -/
def gsk_sl_program_to_spirv {ω β : Type} (env : SpvCollaborators ω τ φ β)
    (program : GskSlProgram σ τ φ) : β :=
  let writer := env.gsk_spv_writer_new
  let writer := gsk_sl_program_write_spv env program writer
  env.gsk_spv_writer_write writer

/-- A call that the emission makes: an identifier request for a variable, the
emission of a function together with the identifier it returned, or the
registration of an identifier as the entry point. -/
inductive WriterCall (τ φ : Type) where
  | get_id_for_variable (v : GskSlVariable τ)
  | function_write_spv (f : φ) (id : Nat)
  | set_entry_point (id : Nat)
  deriving DecidableEq, Repr

/-- Modelled from the spec: the Binary Module Writer (`gskspvwriter.c` is not
part of the sources at hand), reduced to what the emission can be observed to
do with it: `calls` are the calls received so far, oldest first, and
`entry_point` is the one function designated as the entry point, if any. -/
structure GskSpvWriter (τ φ : Type) where
  calls : List (WriterCall τ φ)
  entry_point : Option Nat
  deriving DecidableEq, Repr

/-- Modelled from the spec: the collaborators of the emission over the writer
above. The identifiers are whatever `variable_id` and `function_id` assign,
given the calls made before; `name` gives a function's name. A fresh writer
has no entry point, designating an entry point replaces the previous one, and
the serialized module is the writer's final state. -/
def tracing_writer (variable_id : GskSlVariable τ → List (WriterCall τ φ) → Nat)
    (function_id : φ → List (WriterCall τ φ) → Nat) (name : φ → String) :
    SpvCollaborators (GskSpvWriter τ φ) τ φ (GskSpvWriter τ φ) where
  gsk_spv_writer_new := ⟨[], none⟩
  gsk_spv_writer_get_id_for_variable := fun writer v =>
    (variable_id v writer.calls,
      { writer with calls := writer.calls ++ [.get_id_for_variable v] })
  gsk_sl_function_write_spv := fun f writer =>
    (function_id f writer.calls,
      { writer with
        calls := writer.calls ++ [.function_write_spv f (function_id f writer.calls)] })
  gsk_sl_function_get_name := name
  gsk_spv_writer_set_entry_point := fun writer id =>
    ⟨writer.calls ++ [.set_entry_point id], some id⟩
  gsk_spv_writer_write := fun writer => writer

/-- The calls that the specification prescribes for one function: its
emission, then, if its name is exactly "main", the registration of the
identifier that the emission returned. -/
def function_calls (name : φ → String) (f : φ) (id : Nat) : List (WriterCall τ φ) :=
  .function_write_spv f id :: (if name f = "main" then [.set_entry_point id] else [])

/-- The identifier of the last function named "main" among the emitted
functions, each paired with the identifier that its emission returned. -/
def last_main (name : φ → String) (emitted : List (φ × Nat)) : Option Nat :=
  ((emitted.filter fun p => name p.1 = "main").getLast?).map fun p => p.2

/-- Whether a call is an identifier request for a variable. -/
def is_identifier_request : WriterCall τ φ → Bool
  | .get_id_for_variable _ => true
  | _ => false

/-- Whether a call is the registration of an entry point. -/
def is_entry_point_registration : WriterCall τ φ → Bool
  | .set_entry_point _ => true
  | _ => false

/-- Example identifiers: the number of calls made before, plus one. -/
def example_writer : SpvCollaborators (GskSpvWriter String String) String String
    (GskSpvWriter String String) :=
  tracing_writer (fun _ calls => calls.length + 1) (fun _ calls => calls.length + 1) id


/-! # Theorems -/

/-! ## The parse loop -/

/-- Starting the loop with the accumulator `success` gives what starting it
with `TRUE` gives, with `success` ANDed to the result: the accumulator has no
influence on which declarations are resolved. -/
theorem parse_loop_accumulator (env : ParseCollaborators σ τ φ) (fuel : Nat) (success : Bool)
    (program : GskSlProgram σ τ φ) (preproc : GskSlPreprocessor) :
    gsk_sl_program_parse_loop env fuel success program preproc
      = (gsk_sl_program_parse_loop env fuel true program preproc).map
          fun out => (success && out.1, out.2) := by
  induction fuel generalizing success program preproc with
  | zero => simp [gsk_sl_program_parse_loop]
  | succ fuel ih =>
    simp only [gsk_sl_program_parse_loop]
    split
    · simp
    · rw [ih (success && _), ih (true && _)]
      simp [Option.map_map, Function.comp_def, Bool.and_assoc]

/-- The loop, unfolded once at a token that is not end-of-input. -/
theorem parse_loop_step (env : ParseCollaborators σ τ φ) (fuel : Nat)
    (program : GskSlProgram σ τ φ) (preproc : GskSlPreprocessor)
    (h : at_eof preproc = false) :
    gsk_sl_program_parse_loop env (fuel + 1) true program preproc
      = (gsk_sl_program_parse_loop env fuel true
            (gsk_sl_program_parse_body env program preproc).2.1
            (gsk_sl_program_parse_body env program preproc).2.2).map
          fun out => ((gsk_sl_program_parse_body env program preproc).1 && out.1, out.2) := by
  simp only [at_eof] at h
  simp only [gsk_sl_program_parse_loop, h]
  rw [parse_loop_accumulator]
  simp

/-- The loop returns exactly when some number `n` of resolver invocations,
less than the fuel, brings the token source to end-of-input for the first
time; it then returns the AND of their `n` results with the program and token
source they leave. -/
theorem parse_loop_characterisation (env : ParseCollaborators σ τ φ) (fuel : Nat)
    (program : GskSlProgram σ τ φ) (preproc : GskSlPreprocessor)
    (out : Bool × GskSlProgram σ τ φ × GskSlPreprocessor) :
    gsk_sl_program_parse_loop env fuel true program preproc = some out
      ↔ ∃ n, n < fuel
          ∧ (∀ k, k < n → at_eof (resolver_invocations env k program preproc).2.2 = false)
          ∧ at_eof (resolver_invocations env n program preproc).2.2 = true
          ∧ out = ((resolver_invocations env n program preproc).1.all id,
                    (resolver_invocations env n program preproc).2) := by
  induction fuel generalizing program preproc out with
  | zero => simp [gsk_sl_program_parse_loop]
  | succ fuel ih =>
    cases h : at_eof preproc with
    | true =>
      have h' := h
      simp only [at_eof] at h'
      simp only [gsk_sl_program_parse_loop, h', if_true, Option.some.injEq]
      constructor
      · intro e
        exact ⟨0, Nat.succ_pos _, fun k hk => absurd hk (Nat.not_lt_zero k),
          by simpa [resolver_invocations] using h, by simp [resolver_invocations, ← e]⟩
      · rintro ⟨n, _, hk, _, e⟩
        cases n with
        | zero => simp [resolver_invocations, e]
        | succ n =>
          have := hk 0 (Nat.succ_pos _)
          simp [resolver_invocations, h] at this
    | false =>
      rw [parse_loop_step env fuel program preproc h]
      simp only [Option.map_eq_some']
      constructor
      · rintro ⟨out', hl, e⟩
        obtain ⟨n, hn, hk, he, ho⟩ := (ih _ _ out').mp hl
        refine ⟨n + 1, Nat.succ_lt_succ hn, ?_, ?_, ?_⟩
        · intro k hk'
          cases k with
          | zero => simpa [resolver_invocations] using h
          | succ k => simpa [resolver_invocations] using hk k (Nat.lt_of_succ_lt_succ hk')
        · simpa [resolver_invocations] using he
        · simp [resolver_invocations, ← e, ho]
      · rintro ⟨n, hn, hk, he, ho⟩
        cases n with
        | zero => simp [resolver_invocations, h] at he
        | succ n =>
          refine ⟨_, (ih _ _ _).mpr ⟨n, Nat.lt_of_succ_lt_succ hn, ?_, ?_, rfl⟩, ?_⟩
          · intro k hk'
            simpa [resolver_invocations] using hk (k + 1) (Nat.succ_lt_succ hk')
          · simpa [resolver_invocations] using he
          · simp [resolver_invocations, ho]

/-- Running `n` resolver invocations yields `n` results. -/
theorem resolver_invocations_length (env : ParseCollaborators σ τ φ) (n : Nat)
    (program : GskSlProgram σ τ φ) (preproc : GskSlPreprocessor) :
    (resolver_invocations env n program preproc).1.length = n := by
  induction n generalizing program preproc with
  | zero => rfl
  | succ n ih => simp [resolver_invocations, ih]

/-- A token source that is not at end-of-input has a token left. -/
theorem tokens_pos_of_not_eof (preproc : GskSlPreprocessor) (h : at_eof preproc = false) :
    0 < preproc.tokens.length := by
  cases ht : preproc.tokens with
  | nil => simp [at_eof, gsk_sl_preprocessor_get, gsk_sl_token_is, ht, eof_token] at h
  | cons t l => simp

/-- With progressing collaborators, a resolver invocation that starts at a
token other than end-of-input leaves fewer tokens than it found. -/
theorem declaration_progress (env : ParseCollaborators σ τ φ) (hp : Progressing env)
    (program : GskSlProgram σ τ φ) (scope : σ) (preproc : GskSlPreprocessor)
    (h : at_eof preproc = false) :
    (gsk_sl_program_parse_declaration env program scope preproc).preproc.tokens.length
      < preproc.tokens.length := by
  have h0 := tokens_pos_of_not_eof preproc h
  have hd := hp.decoration_le scope preproc
  have ht := hp.type_le (env.gsk_sl_decoration_list_parse scope preproc).preproc
  have hlt := hp.type_lt (env.gsk_sl_decoration_list_parse scope preproc).preproc
  simp only [gsk_sl_program_parse_declaration]
  split
  · simp only [gsk_sl_preprocessor_consume, List.length_tail]
    omega
  · rename_i T hT
    have hlt' := hlt T hT
    have hf := hp.function_le scope (gsk_sl_preprocessor_consume
      (env.gsk_sl_type_new_parse (env.gsk_sl_decoration_list_parse scope preproc).preproc).preproc)
      T (gsk_sl_preprocessor_get
      (env.gsk_sl_type_new_parse (env.gsk_sl_decoration_list_parse scope preproc).preproc).preproc).str
    simp only [gsk_sl_preprocessor_consume, List.length_tail] at hf
    simp only [gsk_sl_program_parse_variable]
    repeat' split
    all_goals
      simp only [gsk_sl_preprocessor_consume, gsk_sl_preprocessor_error, List.length_tail]
      omega

/-- With progressing collaborators the token source reaches end-of-input after
at most as many resolver invocations as it has tokens. -/
theorem reaches_eof (env : ParseCollaborators σ τ φ) (hp : Progressing env) (len : Nat)
    (program : GskSlProgram σ τ φ) (preproc : GskSlPreprocessor)
    (hlen : preproc.tokens.length ≤ len) :
    ∃ n, n ≤ len
      ∧ (∀ k, k < n → at_eof (resolver_invocations env k program preproc).2.2 = false)
      ∧ at_eof (resolver_invocations env n program preproc).2.2 = true := by
  induction len generalizing program preproc with
  | zero =>
    refine ⟨0, Nat.le_refl _, fun k hk => absurd hk (Nat.not_lt_zero k), ?_⟩
    cases h : at_eof preproc with
    | true => simpa [resolver_invocations] using h
    | false => have := tokens_pos_of_not_eof preproc h; omega
  | succ len ih =>
    cases h : at_eof preproc with
    | true =>
      exact ⟨0, Nat.zero_le _, fun k hk => absurd hk (Nat.not_lt_zero k),
        by simpa [resolver_invocations] using h⟩
    | false =>
      have hlt := declaration_progress env hp program program.scope preproc h
      obtain ⟨n, hn, hk, he⟩ := ih (gsk_sl_program_parse_body env program preproc).2.1
        (gsk_sl_program_parse_body env program preproc).2.2
        (by simp only [gsk_sl_program_parse_body]; omega)
      refine ⟨n + 1, Nat.succ_le_succ hn, ?_, by simpa [resolver_invocations] using he⟩
      intro k hk'
      cases k with
      | zero => simpa [resolver_invocations] using h
      | succ k => simpa [resolver_invocations] using hk k (Nat.lt_of_succ_lt_succ hk')

/-! ## The declaration resolver, case by case -/

/-- C3: when the type parser returns no type, the resolver returns FALSE
whatever the decoration parser reported, the variable sequence, the function
sequence and the scope are unchanged, and the token source is the one the
decoration and type parsers left with exactly one consume applied to it: its
first remaining token is dropped and nothing is reported. -/
theorem declaration_type_failure (env : ParseCollaborators σ τ φ)
    (program : GskSlProgram σ τ φ) (scope : σ) (preproc : GskSlPreprocessor)
    (hT : (type_parsed env scope preproc).type = none) :
    gsk_sl_program_parse_declaration env program scope preproc
        = ⟨false, program, scope,
            gsk_sl_preprocessor_consume (type_parsed env scope preproc).preproc⟩
    ∧ (gsk_sl_program_parse_declaration env program scope preproc).preproc.tokens
        = (type_parsed env scope preproc).preproc.tokens.drop 1
    ∧ (gsk_sl_program_parse_declaration env program scope preproc).preproc.errors
        = (type_parsed env scope preproc).preproc.errors := by
  simp only [type_parsed, decoration_parsed] at hT
  simp [gsk_sl_program_parse_declaration, type_parsed, decoration_parsed, hT,
    gsk_sl_preprocessor_consume]

/-- C3 at the input `= int`: the type parser fails on `=`, which alone is
skipped. -/
theorem declaration_type_failure_witness :
    (type_parsed example_env [] (stream [tok_equal, tok_int])).type = none
    ∧ gsk_sl_program_parse_declaration example_env example_program []
          (stream [tok_equal, tok_int])
        = ⟨false, example_program, [], ⟨[tok_int], ["Expected a type"]⟩⟩ :=
  ⟨rfl, (declaration_type_failure example_env example_program []
    (stream [tok_equal, tok_int]) rfl).1⟩

/-- C4: when the decoration parser succeeds, the type parser returns the type
`T` and the next token is a semicolon, the resolver returns TRUE, appends at
the end of the variable sequence one Variable without a name whose usage-site
type is `T`, not mutable, with the decoration's caller access, leaves the
function sequence and the scope as they were (the variable is not registered),
and consumes exactly the semicolon. -/
theorem declaration_anonymous_variable (env : ParseCollaborators σ τ φ)
    (program : GskSlProgram σ τ φ) (scope : σ) (preproc : GskSlPreprocessor) (T : τ)
    (hD : (decoration_parsed env scope preproc).success = true)
    (hT : (type_parsed env scope preproc).type = some T)
    (hS : (gsk_sl_preprocessor_get (type_parsed env scope preproc).preproc).type
      = .GSK_SL_TOKEN_SEMICOLON) :
    gsk_sl_program_parse_declaration env program scope preproc
        = ⟨true,
            ⟨program.scope,
              program.vars ++
                [⟨⟨T, false, caller_access (decoration_parsed env scope preproc).decoration⟩,
                  none⟩],
              program.functions⟩,
            scope,
            gsk_sl_preprocessor_consume (type_parsed env scope preproc).preproc⟩
    ∧ (∃ semicolon, semicolon.type = .GSK_SL_TOKEN_SEMICOLON
        ∧ (type_parsed env scope preproc).preproc.tokens
            = semicolon ::
              (gsk_sl_program_parse_declaration env program scope preproc).preproc.tokens)
    ∧ (gsk_sl_program_parse_declaration env program scope preproc).preproc.errors
        = (type_parsed env scope preproc).preproc.errors := by
  simp only [type_parsed, decoration_parsed] at hD hT hS
  have hne : (env.gsk_sl_type_new_parse
      (env.gsk_sl_decoration_list_parse scope preproc).preproc).preproc.tokens ≠ [] := by
    intro h
    simp [gsk_sl_preprocessor_get, h, eof_token] at hS
  obtain ⟨t, rest, hcons⟩ := List.exists_cons_of_ne_nil hne
  have ht : t.type = .GSK_SL_TOKEN_SEMICOLON := by
    simpa [gsk_sl_preprocessor_get, hcons] using hS
  have main : gsk_sl_program_parse_declaration env program scope preproc
      = ⟨true,
          ⟨program.scope,
            program.vars ++
              [⟨⟨T, false, caller_access (decoration_parsed env scope preproc).decoration⟩,
                none⟩],
            program.functions⟩,
          scope,
          gsk_sl_preprocessor_consume (type_parsed env scope preproc).preproc⟩ := by
    simp [gsk_sl_program_parse_declaration, type_parsed, decoration_parsed, hT, hD, hS,
      gsk_sl_token_is, gsk_sl_pointer_type_new, gsk_sl_variable_new, caller_access]
  refine ⟨main, ⟨t, ht, ?_⟩, ?_⟩ <;> rw [main] <;>
    simp [type_parsed, decoration_parsed, gsk_sl_preprocessor_consume, hcons]

/-- C4 at the input `in int ; int`: one anonymous variable of caller access 1,
the second `int` is left in the stream. -/
theorem declaration_anonymous_variable_witness :
    gsk_sl_program_parse_declaration example_env example_program []
          (stream [tok_qualifier, tok_int, tok_semicolon, tok_int])
        = ⟨true, ⟨[], [⟨⟨"int", false, 1⟩, none⟩], []⟩, [], ⟨[tok_int], []⟩⟩ :=
  (declaration_anonymous_variable example_env example_program []
    (stream [tok_qualifier, tok_int, tok_semicolon, tok_int]) "int" rfl rfl rfl).1

/-- C6: when the type parser returns the type `T` and the next two tokens are
an identifier `name` and a left parenthesis, the resolver consumes the
identifier and calls the function parser with the scope, `T` and `name`; it
returns the decoration's success flag AND the function parser's success, the
function sequence gains the parsed function at its end when there is one and
is unchanged otherwise, and the variable sequence and the scope are unchanged. -/
theorem declaration_function (env : ParseCollaborators σ τ φ)
    (program : GskSlProgram σ τ φ) (scope : σ) (preproc : GskSlPreprocessor) (T : τ)
    (hT : (type_parsed env scope preproc).type = some T)
    (hI : (gsk_sl_preprocessor_get (type_parsed env scope preproc).preproc).type
      = .GSK_SL_TOKEN_IDENTIFIER)
    (hP : (gsk_sl_preprocessor_get
        (gsk_sl_preprocessor_consume (type_parsed env scope preproc).preproc)).type
      = .GSK_SL_TOKEN_LEFT_PAREN) :
    gsk_sl_program_parse_declaration env program scope preproc
      = ⟨(decoration_parsed env scope preproc).success
            && (env.gsk_sl_function_new_parse scope
                  (gsk_sl_preprocessor_consume (type_parsed env scope preproc).preproc) T
                  (gsk_sl_preprocessor_get (type_parsed env scope preproc).preproc).str
                ).function.isSome,
          ⟨program.scope, program.vars,
            program.functions ++
              (env.gsk_sl_function_new_parse scope
                  (gsk_sl_preprocessor_consume (type_parsed env scope preproc).preproc) T
                  (gsk_sl_preprocessor_get (type_parsed env scope preproc).preproc).str
                ).function.toList⟩,
          scope,
          (env.gsk_sl_function_new_parse scope
              (gsk_sl_preprocessor_consume (type_parsed env scope preproc).preproc) T
              (gsk_sl_preprocessor_get (type_parsed env scope preproc).preproc).str
            ).preproc⟩
    ∧ (∀ f, (env.gsk_sl_function_new_parse scope
              (gsk_sl_preprocessor_consume (type_parsed env scope preproc).preproc) T
              (gsk_sl_preprocessor_get (type_parsed env scope preproc).preproc).str
            ).function = some f →
        (gsk_sl_program_parse_declaration env program scope preproc).success
            = (decoration_parsed env scope preproc).success
          ∧ (gsk_sl_program_parse_declaration env program scope preproc).program.functions
            = program.functions ++ [f])
    ∧ ((env.gsk_sl_function_new_parse scope
              (gsk_sl_preprocessor_consume (type_parsed env scope preproc).preproc) T
              (gsk_sl_preprocessor_get (type_parsed env scope preproc).preproc).str
            ).function = none →
        (gsk_sl_program_parse_declaration env program scope preproc).success = false
          ∧ (gsk_sl_program_parse_declaration env program scope preproc).program.functions
            = program.functions) := by
  simp only [type_parsed, decoration_parsed] at hT hI hP
  simp only [gsk_sl_program_parse_declaration, type_parsed, decoration_parsed, hT, hI, hP,
    gsk_sl_token_is]
  cases hf : (env.gsk_sl_function_new_parse scope
      (gsk_sl_preprocessor_consume (env.gsk_sl_type_new_parse
        (env.gsk_sl_decoration_list_parse scope preproc).preproc).preproc) T
      (gsk_sl_preprocessor_get (env.gsk_sl_type_new_parse
        (env.gsk_sl_decoration_list_parse scope preproc).preproc).preproc).str).function <;>
    simp

/-- C6 at the input `int main ( )`: the function `main` is appended. -/
theorem declaration_function_witness :
    gsk_sl_program_parse_declaration example_env example_program []
          (stream [tok_int, tok_ident "main", tok_left_paren, tok_close])
        = ⟨true, ⟨[], [], ["main"]⟩, [], ⟨[], []⟩⟩ :=
  (declaration_function example_env example_program []
    (stream [tok_int, tok_ident "main", tok_left_paren, tok_close]) "int" rfl rfl rfl).1

/-- C7: when the type parser returns the type `T` and the next tokens are an
identifier `name` and a semicolon, the resolver consumes both, appends at the
end of the variable sequence one Variable named `name` whose usage-site type
is `T`, not mutable, with the decoration's caller access, passes that Variable
to the scope's add-variable operation on the current scope, leaves the function
sequence unchanged and returns the decoration parser's success flag. -/
theorem declaration_named_variable (env : ParseCollaborators σ τ φ)
    (program : GskSlProgram σ τ φ) (scope : σ) (preproc : GskSlPreprocessor) (T : τ)
    (hT : (type_parsed env scope preproc).type = some T)
    (hI : (gsk_sl_preprocessor_get (type_parsed env scope preproc).preproc).type
      = .GSK_SL_TOKEN_IDENTIFIER)
    (hS : (gsk_sl_preprocessor_get
        (gsk_sl_preprocessor_consume (type_parsed env scope preproc).preproc)).type
      = .GSK_SL_TOKEN_SEMICOLON) :
    gsk_sl_program_parse_declaration env program scope preproc
      = ⟨(decoration_parsed env scope preproc).success,
          ⟨program.scope,
            program.vars ++
              [⟨⟨T, false, caller_access (decoration_parsed env scope preproc).decoration⟩,
                some (gsk_sl_preprocessor_get (type_parsed env scope preproc).preproc).str⟩],
            program.functions⟩,
          env.gsk_sl_scope_add_variable scope
            ⟨⟨T, false, caller_access (decoration_parsed env scope preproc).decoration⟩,
              some (gsk_sl_preprocessor_get (type_parsed env scope preproc).preproc).str⟩,
          gsk_sl_preprocessor_consume
            (gsk_sl_preprocessor_consume (type_parsed env scope preproc).preproc)⟩
    ∧ (∃ identifier semicolon, identifier.type = .GSK_SL_TOKEN_IDENTIFIER
        ∧ semicolon.type = .GSK_SL_TOKEN_SEMICOLON
        ∧ (type_parsed env scope preproc).preproc.tokens
            = identifier :: semicolon ::
              (gsk_sl_program_parse_declaration env program scope preproc).preproc.tokens)
    ∧ (gsk_sl_program_parse_declaration env program scope preproc).preproc.errors
        = (type_parsed env scope preproc).preproc.errors := by
  simp only [type_parsed, decoration_parsed] at hT hI hS
  have hne : (env.gsk_sl_type_new_parse
      (env.gsk_sl_decoration_list_parse scope preproc).preproc).preproc.tokens ≠ [] := by
    intro h
    simp [gsk_sl_preprocessor_get, h, eof_token] at hI
  obtain ⟨t, rest, hcons⟩ := List.exists_cons_of_ne_nil hne
  have ht : t.type = .GSK_SL_TOKEN_IDENTIFIER := by
    simpa [gsk_sl_preprocessor_get, hcons] using hI
  have hne2 : rest ≠ [] := by
    intro h
    simp [gsk_sl_preprocessor_get, gsk_sl_preprocessor_consume, hcons, h, eof_token] at hS
  obtain ⟨t2, rest2, hcons2⟩ := List.exists_cons_of_ne_nil hne2
  have ht2 : t2.type = .GSK_SL_TOKEN_SEMICOLON := by
    simpa [gsk_sl_preprocessor_get, gsk_sl_preprocessor_consume, hcons, hcons2] using hS
  have main : gsk_sl_program_parse_declaration env program scope preproc
      = ⟨(decoration_parsed env scope preproc).success,
          ⟨program.scope,
            program.vars ++
              [⟨⟨T, false, caller_access (decoration_parsed env scope preproc).decoration⟩,
                some (gsk_sl_preprocessor_get (type_parsed env scope preproc).preproc).str⟩],
            program.functions⟩,
          env.gsk_sl_scope_add_variable scope
            ⟨⟨T, false, caller_access (decoration_parsed env scope preproc).decoration⟩,
              some (gsk_sl_preprocessor_get (type_parsed env scope preproc).preproc).str⟩,
          gsk_sl_preprocessor_consume
            (gsk_sl_preprocessor_consume (type_parsed env scope preproc).preproc)⟩ := by
    simp [gsk_sl_program_parse_declaration, gsk_sl_program_parse_variable, type_parsed,
      decoration_parsed, hT, hI, hS, gsk_sl_token_is, gsk_sl_pointer_type_new,
      gsk_sl_variable_new, caller_access]
  refine ⟨main, ⟨t, t2, ht, ht2, ?_⟩, ?_⟩ <;> rw [main] <;>
    simp [type_parsed, decoration_parsed, gsk_sl_preprocessor_consume, hcons, hcons2]

/-- C7 at the input `in int x ; int`: the variable `x` is appended and
registered, the second `int` is left in the stream. -/
theorem declaration_named_variable_witness :
    gsk_sl_program_parse_declaration example_env example_program []
          (stream [tok_qualifier, tok_int, tok_ident "x", tok_semicolon, tok_int])
        = ⟨true, ⟨[], [⟨⟨"int", false, 1⟩, some "x"⟩], []⟩, [⟨⟨"int", false, 1⟩, some "x"⟩],
            ⟨[tok_int], []⟩⟩ :=
  (declaration_named_variable example_env example_program []
    (stream [tok_qualifier, tok_int, tok_ident "x", tok_semicolon, tok_int])
    "int" rfl rfl rfl).1

/-- C8: when the type parser returns a type and the next token is an
identifier followed by a token that is neither a left parenthesis nor a
semicolon, the resolver returns FALSE, consumes the identifier and nothing
after it, reports no diagnostic, and leaves the variable sequence, the function
sequence and the scope unchanged. -/
theorem declaration_missing_semicolon (env : ParseCollaborators σ τ φ)
    (program : GskSlProgram σ τ φ) (scope : σ) (preproc : GskSlPreprocessor) (T : τ)
    (hT : (type_parsed env scope preproc).type = some T)
    (hI : (gsk_sl_preprocessor_get (type_parsed env scope preproc).preproc).type
      = .GSK_SL_TOKEN_IDENTIFIER)
    (hP : (gsk_sl_preprocessor_get
        (gsk_sl_preprocessor_consume (type_parsed env scope preproc).preproc)).type
      ≠ .GSK_SL_TOKEN_LEFT_PAREN)
    (hS : (gsk_sl_preprocessor_get
        (gsk_sl_preprocessor_consume (type_parsed env scope preproc).preproc)).type
      ≠ .GSK_SL_TOKEN_SEMICOLON) :
    gsk_sl_program_parse_declaration env program scope preproc
      = ⟨false, program, scope,
          gsk_sl_preprocessor_consume (type_parsed env scope preproc).preproc⟩
    ∧ (∃ identifier, identifier.type = .GSK_SL_TOKEN_IDENTIFIER
        ∧ (type_parsed env scope preproc).preproc.tokens
            = identifier ::
              (gsk_sl_program_parse_declaration env program scope preproc).preproc.tokens)
    ∧ (gsk_sl_program_parse_declaration env program scope preproc).preproc.errors
        = (type_parsed env scope preproc).preproc.errors := by
  simp only [type_parsed, decoration_parsed] at hT hI hP hS
  have hne : (env.gsk_sl_type_new_parse
      (env.gsk_sl_decoration_list_parse scope preproc).preproc).preproc.tokens ≠ [] := by
    intro h
    simp [gsk_sl_preprocessor_get, h, eof_token] at hI
  obtain ⟨t, rest, hcons⟩ := List.exists_cons_of_ne_nil hne
  have ht : t.type = .GSK_SL_TOKEN_IDENTIFIER := by
    simpa [gsk_sl_preprocessor_get, hcons] using hI
  have main : gsk_sl_program_parse_declaration env program scope preproc
      = ⟨false, program, scope,
          gsk_sl_preprocessor_consume (type_parsed env scope preproc).preproc⟩ := by
    simp [gsk_sl_program_parse_declaration, gsk_sl_program_parse_variable, type_parsed,
      decoration_parsed, hT, hI, hP, hS, gsk_sl_token_is]
  refine ⟨main, ⟨t, ht, ?_⟩, ?_⟩ <;> rw [main] <;>
    simp [type_parsed, decoration_parsed, gsk_sl_preprocessor_consume, hcons]

/-- C8 at the input `int x = ;`: only `x` is consumed after the type. -/
theorem declaration_missing_semicolon_witness :
    gsk_sl_program_parse_declaration example_env example_program []
          (stream [tok_int, tok_ident "x", tok_equal, tok_semicolon])
        = ⟨false, example_program, [], ⟨[tok_equal, tok_semicolon], []⟩⟩ :=
  (declaration_missing_semicolon example_env example_program []
    (stream [tok_int, tok_ident "x", tok_equal, tok_semicolon]) "int" rfl rfl
    (by decide) (by decide)).1

/-- C9: when the type parser returns a type and the next token is neither a
semicolon nor an identifier, the resolver reports the one diagnostic
"Expected a variable name", returns FALSE whatever the decoration parser
reported, consumes no token after the type, and leaves the variable sequence,
the function sequence and the scope unchanged. -/
theorem declaration_expected_name (env : ParseCollaborators σ τ φ)
    (program : GskSlProgram σ τ φ) (scope : σ) (preproc : GskSlPreprocessor) (T : τ)
    (hT : (type_parsed env scope preproc).type = some T)
    (hS : (gsk_sl_preprocessor_get (type_parsed env scope preproc).preproc).type
      ≠ .GSK_SL_TOKEN_SEMICOLON)
    (hI : (gsk_sl_preprocessor_get (type_parsed env scope preproc).preproc).type
      ≠ .GSK_SL_TOKEN_IDENTIFIER) :
    gsk_sl_program_parse_declaration env program scope preproc
      = ⟨false, program, scope,
          gsk_sl_preprocessor_error (type_parsed env scope preproc).preproc
            "Expected a variable name"⟩
    ∧ (gsk_sl_program_parse_declaration env program scope preproc).preproc.errors
        = (type_parsed env scope preproc).preproc.errors ++ ["Expected a variable name"]
    ∧ (gsk_sl_program_parse_declaration env program scope preproc).preproc.tokens
        = (type_parsed env scope preproc).preproc.tokens := by
  simp only [type_parsed, decoration_parsed] at hT hS hI
  simp [gsk_sl_program_parse_declaration, type_parsed, decoration_parsed, hT, hS, hI,
    gsk_sl_token_is, gsk_sl_preprocessor_error]

/-- C9 at the input `int = ;`: one diagnostic, `=` is not consumed. -/
theorem declaration_expected_name_witness :
    gsk_sl_program_parse_declaration example_env example_program []
          (stream [tok_int, tok_equal, tok_semicolon])
        = ⟨false, example_program, [],
            ⟨[tok_equal, tok_semicolon], ["Expected a variable name"]⟩⟩ :=
  (declaration_expected_name example_env example_program []
    (stream [tok_int, tok_equal, tok_semicolon]) "int" rfl (by decide) (by decide)).1

/-- The example collaborators are progressing. -/
theorem example_env_progressing : Progressing example_env where
  decoration_le := by
    intro scope preproc
    simp only [example_env, example_decoration_list_parse]
    split <;> simp [gsk_sl_preprocessor_consume, gsk_sl_preprocessor_error]
  type_le := by
    intro preproc
    simp only [example_env, example_type_new_parse]
    split <;> simp [gsk_sl_preprocessor_consume, gsk_sl_preprocessor_error]
  type_lt := by
    intro preproc T
    simp only [example_env, example_type_new_parse]
    split
    · rename_i h
      intro _
      cases ht : preproc.tokens with
      | nil => simp [gsk_sl_preprocessor_get, ht, eof_token] at h
      | cons t l => simp [gsk_sl_preprocessor_consume, ht]
    · simp
  function_le := by
    intro scope preproc T name
    simp only [example_env, example_function_new_parse]
    split
    all_goals simp [gsk_sl_preprocessor_consume, gsk_sl_preprocessor_error]
    all_goals omega

/-! ## The claims on the parse loop -/

/-- C1: `gsk_sl_program_parse` returns exactly when some number `n` of resolver
invocations against the root scope, one after the other, first brings the
token source to end-of-input; it then returns the program and token source
those `n` invocations leave, and TRUE iff every one of the `n` invocations
returned TRUE. How many declarations are resolved depends on the token source
only, never on an earlier result: an accumulated FALSE is carried along while
the loop goes on as it would from TRUE. On a stream that starts at
end-of-input there is no invocation, the result is TRUE, and the program (so
each of its sequences) is as it was. -/
theorem parse_is_and_of_all_declarations (env : ParseCollaborators σ τ φ)
    (program : GskSlProgram σ τ φ) (preproc : GskSlPreprocessor) :
    (∀ fuel out, gsk_sl_program_parse env fuel program preproc = some out
      ↔ ∃ n, n < fuel
          ∧ (resolver_invocations env n program preproc).1.length = n
          ∧ (∀ k, k < n → at_eof (resolver_invocations env k program preproc).2.2 = false)
          ∧ at_eof (resolver_invocations env n program preproc).2.2 = true
          ∧ (out.1 = true ↔ ∀ r ∈ (resolver_invocations env n program preproc).1, r = true)
          ∧ out.2 = (resolver_invocations env n program preproc).2)
    ∧ (∀ fuel success, gsk_sl_program_parse_loop env fuel success program preproc
        = (gsk_sl_program_parse env fuel program preproc).map
            fun out => (success && out.1, out.2))
    ∧ (at_eof preproc = true →
        ∀ fuel, gsk_sl_program_parse env (fuel + 1) program preproc
          = some (true, program, preproc)) := by
  refine ⟨?_, ?_, ?_⟩
  · intro fuel out
    rw [gsk_sl_program_parse, parse_loop_characterisation]
    constructor
    · rintro ⟨n, hn, hk, he, ho⟩
      refine ⟨n, hn, resolver_invocations_length env n program preproc, hk, he, ?_, ?_⟩
      · simp [ho]
      · simp [ho]
    · rintro ⟨n, hn, _, hk, he, h1, h2⟩
      refine ⟨n, hn, hk, he, ?_⟩
      obtain ⟨b, rest⟩ := out
      simp only at h1 h2
      subst h2
      congr 1
      cases b with
      | true => exact ((List.all_eq_true.mpr fun r hr => by simpa using h1.mp rfl r hr)).symm
      | false =>
        cases hall : (resolver_invocations env n program preproc).1.all id with
        | false => rfl
        | true =>
          have := h1.mpr fun r hr => by simpa using List.all_eq_true.mp hall r hr
          simp at this
  · intro fuel success
    exact parse_loop_accumulator env fuel success program preproc
  · intro h fuel
    have h' := h
    simp only [at_eof] at h'
    simp [gsk_sl_program_parse, gsk_sl_program_parse_loop, h']

/-- C1 at the input `layout int ; int x ;` with a failing decoration: the
first declaration fails, the following two are still resolved, and the result
is FALSE. -/
theorem parse_is_and_of_all_declarations_witness :
    gsk_sl_program_parse example_env 4 example_program
        (stream [tok_bad_decoration, tok_int, tok_semicolon, tok_int, tok_ident "x",
          tok_semicolon])
      = some (false, ⟨[⟨⟨"int", false, 0⟩, some "x"⟩], [⟨⟨"int", false, 0⟩, some "x"⟩], []⟩,
          ⟨[], ["Unknown decoration", "Expected a type"]⟩)
    ∧ (resolver_invocations example_env 3 example_program
        (stream [tok_bad_decoration, tok_int, tok_semicolon, tok_int, tok_ident "x",
          tok_semicolon])).1 = [false, false, true] :=
  ⟨((parse_is_and_of_all_declarations example_env example_program
      (stream [tok_bad_decoration, tok_int, tok_semicolon, tok_int, tok_ident "x",
        tok_semicolon])).1 4 _).mpr
      ⟨3, by decide, rfl, by decide, rfl, by decide, rfl⟩, rfl⟩

/-- C2: when the decoration, type and function parsers never move the token
source backwards and the type parser takes at least one token whenever it
returns a type, every resolver invocation that starts at a token other than
end-of-input leaves strictly fewer tokens than it found, and
`gsk_sl_program_parse` returns (with any fuel above the number of tokens, and
whatever the declarations' results) after a number of resolver invocations
that is at most the number of tokens, with the token source at end-of-input. -/
theorem parse_terminates_at_eof (env : ParseCollaborators σ τ φ) (hp : Progressing env)
    (program : GskSlProgram σ τ φ) (preproc : GskSlPreprocessor) :
    (∀ (p : GskSlProgram σ τ φ) (scope : σ) (pp : GskSlPreprocessor), at_eof pp = false →
        (gsk_sl_program_parse_declaration env p scope pp).preproc.tokens.length
          < pp.tokens.length)
    ∧ ∃ n out, n ≤ preproc.tokens.length
        ∧ (∀ fuel, preproc.tokens.length < fuel →
            gsk_sl_program_parse env fuel program preproc = some out)
        ∧ at_eof out.2.2 = true
        ∧ (resolver_invocations env n program preproc).1.length = n
        ∧ (∀ k, k < n → at_eof (resolver_invocations env k program preproc).2.2 = false)
        ∧ out.2 = (resolver_invocations env n program preproc).2 := by
  refine ⟨fun p scope pp h => declaration_progress env hp p scope pp h, ?_⟩
  obtain ⟨n, hn, hk, he⟩ := reaches_eof env hp _ program preproc (Nat.le_refl _)
  refine ⟨n, ((resolver_invocations env n program preproc).1.all id,
    (resolver_invocations env n program preproc).2), hn, ?_, he,
    resolver_invocations_length env n program preproc, hk, rfl⟩
  intro fuel hfuel
  rw [gsk_sl_program_parse, parse_loop_characterisation]
  exact ⟨n, Nat.lt_of_le_of_lt hn hfuel, hk, he, rfl⟩

/-- C2 for the example collaborators at the input `= = =`, where every
declaration fails: three invocations, then end-of-input. -/
theorem parse_terminates_at_eof_witness :
    Progressing example_env
    ∧ gsk_sl_program_parse example_env 4 example_program
          (stream [tok_equal, tok_equal, tok_equal])
        = some (false, example_program,
            ⟨[], ["Expected a type", "Expected a type", "Expected a type"]⟩)
    ∧ ∃ n out, n ≤ 3
        ∧ (∀ fuel, 3 < fuel →
            gsk_sl_program_parse example_env fuel example_program
              (stream [tok_equal, tok_equal, tok_equal]) = some out)
        ∧ at_eof out.2.2 = true
        ∧ (resolver_invocations example_env n example_program
            (stream [tok_equal, tok_equal, tok_equal])).1.length = n
        ∧ (∀ k, k < n → at_eof (resolver_invocations example_env k example_program
            (stream [tok_equal, tok_equal, tok_equal])).2.2 = false)
        ∧ out.2 = (resolver_invocations example_env n example_program
            (stream [tok_equal, tok_equal, tok_equal])).2 :=
  ⟨example_env_progressing, rfl,
    (parse_terminates_at_eof example_env example_env_progressing example_program
      (stream [tok_equal, tok_equal, tok_equal])).2⟩

/-- The loop never turns an accumulated FALSE into TRUE. -/
theorem parse_loop_false (env : ParseCollaborators σ τ φ) (fuel : Nat)
    (program : GskSlProgram σ τ φ) (preproc : GskSlPreprocessor)
    (out : Bool × GskSlProgram σ τ φ × GskSlPreprocessor)
    (h : gsk_sl_program_parse_loop env fuel false program preproc = some out) :
    out.1 = false := by
  rw [parse_loop_accumulator] at h
  simp only [Option.map_eq_some'] at h
  obtain ⟨o, _, rfl⟩ := h
  simp

/-- C5: when the decoration parser fails, the type parser returns a type and
the next token is a semicolon, the resolver returns FALSE, appends no
Variable, leaves the function sequence and the scope unchanged, and leaves the
token source exactly where the type parser left it, the semicolon not
consumed. Consequently `gsk_sl_program_parse`, started at such a declaration,
never returns TRUE, and with progressing collaborators it does return, FALSE. -/
theorem declaration_anonymous_decoration_failure (env : ParseCollaborators σ τ φ)
    (program : GskSlProgram σ τ φ) (scope : σ) (preproc : GskSlPreprocessor) (T : τ)
    (hD : (decoration_parsed env scope preproc).success = false)
    (hT : (type_parsed env scope preproc).type = some T)
    (hS : (gsk_sl_preprocessor_get (type_parsed env scope preproc).preproc).type
      = .GSK_SL_TOKEN_SEMICOLON) :
    gsk_sl_program_parse_declaration env program scope preproc
        = ⟨false, program, scope, (type_parsed env scope preproc).preproc⟩
    ∧ (program.scope = scope → at_eof preproc = false →
        (∀ fuel out, gsk_sl_program_parse env fuel program preproc = some out →
          out.1 = false)
        ∧ (Progressing env →
            ∃ out, out.1 = false ∧ ∀ fuel, preproc.tokens.length < fuel →
              gsk_sl_program_parse env fuel program preproc = some out)) := by
  have main : gsk_sl_program_parse_declaration env program scope preproc
      = ⟨false, program, scope, (type_parsed env scope preproc).preproc⟩ := by
    simp only [type_parsed, decoration_parsed] at hD hT hS
    simp [gsk_sl_program_parse_declaration, type_parsed, decoration_parsed, hT, hD, hS,
      gsk_sl_token_is]
  refine ⟨main, ?_⟩
  intro hscope heof
  subst hscope
  have key : ∀ fuel out, gsk_sl_program_parse env fuel program preproc = some out →
      out.1 = false := by
    intro fuel out h
    cases fuel with
    | zero => simp [gsk_sl_program_parse, gsk_sl_program_parse_loop] at h
    | succ fuel =>
      have heof' := heof
      simp only [at_eof] at heof'
      simp only [gsk_sl_program_parse, gsk_sl_program_parse_loop, heof',
        gsk_sl_program_parse_body, main] at h
      exact parse_loop_false env fuel _ _ out (by simpa using h)
  refine ⟨key, ?_⟩
  intro hp
  obtain ⟨n, hn, hk, he⟩ := reaches_eof env hp _ program preproc (Nat.le_refl _)
  have hret : ∀ fuel, preproc.tokens.length < fuel →
      gsk_sl_program_parse env fuel program preproc
        = some ((resolver_invocations env n program preproc).1.all id,
            (resolver_invocations env n program preproc).2) := by
    intro fuel hfuel
    rw [gsk_sl_program_parse, parse_loop_characterisation]
    exact ⟨n, Nat.lt_of_le_of_lt hn hfuel, hk, he, rfl⟩
  exact ⟨_, key _ _ (hret _ (Nat.lt_succ_self _)), hret⟩

/-- C5 at the input `layout int ;` of Scenario C, with the decoration parser
failing on `layout`: the resolver leaves the semicolon in the stream, and the
parse returns FALSE with an empty program. -/
theorem declaration_anonymous_decoration_failure_witness :
    gsk_sl_program_parse_declaration example_env example_program []
          (stream [tok_bad_decoration, tok_int, tok_semicolon])
        = ⟨false, example_program, [], ⟨[tok_semicolon], ["Unknown decoration"]⟩⟩
    ∧ gsk_sl_program_parse example_env 3 example_program
          (stream [tok_bad_decoration, tok_int, tok_semicolon])
        = some (false, example_program, ⟨[], ["Unknown decoration", "Expected a type"]⟩)
    ∧ ∃ out, out.1 = false ∧ ∀ fuel, 3 < fuel →
        gsk_sl_program_parse example_env fuel example_program
          (stream [tok_bad_decoration, tok_int, tok_semicolon]) = some out :=
  ⟨(declaration_anonymous_decoration_failure example_env example_program []
      (stream [tok_bad_decoration, tok_int, tok_semicolon]) "int" rfl rfl rfl).1,
    rfl,
    ((declaration_anonymous_decoration_failure example_env example_program []
      (stream [tok_bad_decoration, tok_int, tok_semicolon]) "int" rfl rfl rfl).2
        rfl rfl).2 example_env_progressing⟩

/-! ## The printer -/

/-- Joining strings from a non-empty start. -/
theorem foldl_append_start (l : List String) (a : String) :
    l.foldl (fun r s => r ++ s) a = a ++ l.foldl (fun r s => r ++ s) "" := by
  induction l generalizing a with
  | nil => simp
  | cons x l ih =>
    simp only [List.foldl_cons]
    rw [ih (a ++ x), ih ("" ++ x)]
    simp [String.append_assoc]

/-- The join of a list of strings, one element at a time. -/
theorem string_join_cons (a : String) (l : List String) :
    String.join (a :: l) = a ++ String.join l := by
  simp only [String.join, List.foldl_cons]
  rw [foldl_append_start]
  simp

/-- The first loop appends every variable's text followed by ";\n". -/
theorem print_variables_appends (env : PrintCollaborators τ φ)
    (vtext : GskSlVariable τ → String)
    (hv : ∀ v s, env.gsk_sl_variable_print v s = s ++ vtext v)
    (l : List (GskSlVariable τ)) (s : String) :
    gsk_sl_program_print_variables env l s
      = s ++ String.join (l.map fun v => vtext v ++ ";\n") := by
  induction l generalizing s with
  | nil => simp [gsk_sl_program_print_variables, String.join]
  | cons v l ih =>
    simp [gsk_sl_program_print_variables, ih, hv, g_string_append, string_join_cons,
      String.append_assoc]

/-- Past the first node the second loop appends a line break and the
function's text for every function. -/
theorem print_functions_tail_appends (env : PrintCollaborators τ φ) (ftext : φ → String)
    (hf : ∀ f s, env.gsk_sl_function_print f s = s ++ ftext f)
    (vars : List (GskSlVariable τ)) (l : List φ) (s : String) :
    gsk_sl_program_print_functions env vars false l s
      = s ++ String.join (l.map fun f => "\n" ++ ftext f) := by
  induction l generalizing s with
  | nil => simp [gsk_sl_program_print_functions, String.join]
  | cons f l ih =>
    simp [gsk_sl_program_print_functions, ih, hf, g_string_append, string_join_cons,
      String.append_assoc]

/-- From index 1 on every separator is a line break. -/
theorem separators_from_one (ftext : φ → String) (n : Nat) (l : List φ) (k : Nat)
    (hk : 0 < k) :
    (l.enumFrom k).map (fun jf => separator n jf.1 ++ ftext jf.2)
      = l.map fun f => "\n" ++ ftext f := by
  induction l generalizing k with
  | nil => rfl
  | cons f l ih =>
    have : k ≠ 0 := Nat.pos_iff_ne_zero.mp hk
    simp only [List.enumFrom, List.map_cons, ih (k + 1) (Nat.succ_pos k)]
    simp [separator, this]

/-- The number of line-break separators among the first `m`, from index `k ≥ 1`. -/
theorem separator_count_from (n m k : Nat) (hk : 0 < k) :
    ((List.range' k m).map (separator n)).count "\n" = m := by
  induction m generalizing k with
  | zero => rfl
  | succ m ih =>
    have : k ≠ 0 := Nat.pos_iff_ne_zero.mp hk
    simp only [List.range', List.map_cons, List.count_cons, ih (k + 1) (Nat.succ_pos k)]
    simp [separator, this]

/-- C10: with printers that append the text of what they print, for a program
with variables `v1..vn` and functions `f1..fm` the buffer `s` becomes `s`
followed by each variable's text and ";\n", then by each function's text
preceded by its separator, which is "\n" except that the first function's is
empty when there is no variable. Among the `m` separators there are `m` line
breaks when `n > 0` and `m - 1` (0 for `m = 0`) when `n = 0`; for the empty
program the buffer is unchanged. -/
theorem print_appends_printed_text (env : PrintCollaborators τ φ)
    (vtext : GskSlVariable τ → String) (ftext : φ → String)
    (hv : ∀ v s, env.gsk_sl_variable_print v s = s ++ vtext v)
    (hf : ∀ f s, env.gsk_sl_function_print f s = s ++ ftext f)
    (program : GskSlProgram σ τ φ) (s : String) :
    gsk_sl_program_print env program s
        = s ++ printed_text vtext ftext program.vars program.functions
    ∧ ((List.range program.functions.length).map (separator program.vars.length)).count "\n"
        = (if 0 < program.vars.length then program.functions.length
            else program.functions.length - 1)
    ∧ (program.vars = [] → program.functions = [] →
        gsk_sl_program_print env program s = s) := by
  obtain ⟨scope, vars, functions⟩ := program
  refine ⟨?_, ?_, ?_⟩
  · simp only [gsk_sl_program_print, printed_text, print_variables_appends env vtext hv]
    cases functions with
    | nil => simp [gsk_sl_program_print_functions, String.join]
    | cons f l =>
      simp only [gsk_sl_program_print_functions, List.enum, List.enumFrom, List.map_cons,
        string_join_cons, separators_from_one ftext vars.length l 1 Nat.one_pos,
        print_functions_tail_appends env ftext hf, hf, g_string_append]
      cases vars with
      | nil => simp [separator, String.join, String.append_assoc]
      | cons v vs => simp [separator, String.append_assoc]
  · simp only
    cases functions with
    | nil => simp
    | cons f l =>
      rw [List.length_cons, List.range_eq_range', List.range'_succ, List.map_cons,
        List.count_cons, separator_count_from _ _ _ Nat.one_pos]
      cases vars with
      | nil => simp [separator]
      | cons v vs => simp [separator]
  · intro h1 h2
    simp only at h1 h2
    subst h1
    subst h2
    simp [gsk_sl_program_print, gsk_sl_program_print_functions,
      gsk_sl_program_print_variables]

/-- C10 for the example printers on a program with one variable and two
functions, and on one with two functions only. -/
theorem print_appends_printed_text_witness :
    gsk_sl_program_print example_printers
        (⟨(), [⟨⟨"int", false, 0⟩, some "x"⟩], ["f", "main"]⟩ : GskSlProgram Unit String String)
        "// "
      = "// " ++ "int x;\n\nvoid f ()\n\nvoid main ()\n"
    ∧ gsk_sl_program_print example_printers
        (⟨(), [], ["f", "main"]⟩ : GskSlProgram Unit String String) "// "
      = "// " ++ "void f ()\n\nvoid main ()\n" :=
  ⟨(print_appends_printed_text example_printers
      (fun v => v.type.type ++ " " ++ v.name.getD "") (fun f => "void " ++ f ++ " ()\n")
      (fun _ _ => rfl) (fun _ _ => rfl)
      (⟨(), [⟨⟨"int", false, 0⟩, some "x"⟩], ["f", "main"]⟩ : GskSlProgram Unit String String)
      "// ").1.trans (by decide),
    (print_appends_printed_text example_printers
      (fun v => v.type.type ++ " " ++ v.name.getD "") (fun f => "void " ++ f ++ " ()\n")
      (fun _ _ => rfl) (fun _ _ => rfl)
      (⟨(), [], ["f", "main"]⟩ : GskSlProgram Unit String String) "// ").1.trans (by decide)⟩


/-! ## What one resolver invocation can do to the program -/

/-- One resolver invocation either fails and changes neither the program nor
the scope, or appends one unnamed variable and succeeds, or appends one named
variable and passes it to the scope's add-variable, or appends one function. -/
theorem declaration_cases (env : ParseCollaborators σ τ φ)
    (program : GskSlProgram σ τ φ) (scope : σ) (preproc : GskSlPreprocessor) :
    ((gsk_sl_program_parse_declaration env program scope preproc).success = false
      ∧ (gsk_sl_program_parse_declaration env program scope preproc).program = program
      ∧ (gsk_sl_program_parse_declaration env program scope preproc).scope = scope)
    ∨ (∃ v, is_named v = false
      ∧ (gsk_sl_program_parse_declaration env program scope preproc).program
          = ⟨program.scope, program.vars ++ [v], program.functions⟩
      ∧ (gsk_sl_program_parse_declaration env program scope preproc).scope = scope)
    ∨ (∃ v, is_named v = true
      ∧ (gsk_sl_program_parse_declaration env program scope preproc).program
          = ⟨program.scope, program.vars ++ [v], program.functions⟩
      ∧ (gsk_sl_program_parse_declaration env program scope preproc).scope
          = env.gsk_sl_scope_add_variable scope v)
    ∨ (∃ f, (gsk_sl_program_parse_declaration env program scope preproc).program
          = ⟨program.scope, program.vars, program.functions ++ [f]⟩
      ∧ (gsk_sl_program_parse_declaration env program scope preproc).scope = scope) := by
  simp only [gsk_sl_program_parse_declaration, gsk_sl_program_parse_variable]
  repeat' split
  all_goals first
    | exact Or.inl ⟨by simp_all, rfl, rfl⟩
    | exact Or.inr (Or.inl ⟨_, And.symm ⟨⟨rfl, rfl⟩, rfl⟩⟩)
    | exact Or.inr (Or.inr (Or.inl ⟨_, And.symm ⟨⟨rfl, rfl⟩, rfl⟩⟩))
    | exact Or.inr (Or.inr (Or.inr ⟨_, rfl, rfl⟩))


/-- One pass through the loop body either changes nothing of the program, or
appends one unnamed variable, or appends one named variable and passes it to
the add-variable of the root scope, or appends one function; a pass that
returns TRUE is not of the first kind. -/
theorem parse_body_cases (env : ParseCollaborators σ τ φ)
    (program : GskSlProgram σ τ φ) (preproc : GskSlPreprocessor) :
    ((gsk_sl_program_parse_body env program preproc).1 = false
      ∧ (gsk_sl_program_parse_body env program preproc).2.1 = program)
    ∨ (∃ v, is_named v = false
      ∧ (gsk_sl_program_parse_body env program preproc).2.1
          = ⟨program.scope, program.vars ++ [v], program.functions⟩)
    ∨ (∃ v, is_named v = true
      ∧ (gsk_sl_program_parse_body env program preproc).2.1
          = ⟨env.gsk_sl_scope_add_variable program.scope v, program.vars ++ [v],
              program.functions⟩)
    ∨ (∃ f, (gsk_sl_program_parse_body env program preproc).2.1
          = ⟨program.scope, program.vars, program.functions ++ [f]⟩) := by
  simp only [gsk_sl_program_parse_body]
  rcases declaration_cases env program program.scope preproc with
    ⟨h1, h2, h3⟩ | ⟨v, hv, h2, h3⟩ | ⟨v, hv, h2, h3⟩ | ⟨f, h2, h3⟩
  · exact Or.inl ⟨h1, by rw [h2, h3]⟩
  · exact Or.inr (Or.inl ⟨v, hv, by rw [h2, h3]⟩)
  · exact Or.inr (Or.inr (Or.inl ⟨v, hv, by rw [h2, h3]⟩))
  · exact Or.inr (Or.inr (Or.inr ⟨f, by rw [h2, h3]⟩))

/-- Running `j + k` resolver invocations is running `j` and then `k` more. -/
theorem resolver_invocations_add (env : ParseCollaborators σ τ φ) (j k : Nat)
    (program : GskSlProgram σ τ φ) (preproc : GskSlPreprocessor) :
    resolver_invocations env (j + k) program preproc
      = ((resolver_invocations env j program preproc).1
          ++ (resolver_invocations env k (resolver_invocations env j program preproc).2.1
                (resolver_invocations env j program preproc).2.2).1,
        (resolver_invocations env k (resolver_invocations env j program preproc).2.1
                (resolver_invocations env j program preproc).2.2).2) := by
  induction j generalizing program preproc with
  | zero => simp [resolver_invocations]
  | succ j ih =>
    rw [Nat.succ_add]
    simp only [resolver_invocations, ih, List.cons_append]

/-- After `n` resolver invocations both sequences are the former ones with
something appended, at most `n` elements in all, and exactly `n` when every
invocation returned TRUE. -/
theorem resolver_invocations_append (env : ParseCollaborators σ τ φ) (n : Nat)
    (program : GskSlProgram σ τ φ) (preproc : GskSlPreprocessor) :
    ∃ vs fs, (resolver_invocations env n program preproc).2.1.vars = program.vars ++ vs
      ∧ (resolver_invocations env n program preproc).2.1.functions = program.functions ++ fs
      ∧ vs.length + fs.length ≤ n
      ∧ ((resolver_invocations env n program preproc).1.all id = true →
          vs.length + fs.length = n) := by
  induction n generalizing program preproc with
  | zero => exact ⟨[], [], by simp [resolver_invocations]⟩
  | succ n ih =>
    obtain ⟨vs, fs, h1, h2, h3, h4⟩ := ih (gsk_sl_program_parse_body env program preproc).2.1
      (gsk_sl_program_parse_body env program preproc).2.2
    simp only [resolver_invocations, List.all_cons, id, Bool.and_eq_true]
    have key : ∃ vs' fs',
        (gsk_sl_program_parse_body env program preproc).2.1.vars = program.vars ++ vs'
        ∧ (gsk_sl_program_parse_body env program preproc).2.1.functions
            = program.functions ++ fs'
        ∧ vs'.length + fs'.length ≤ 1
        ∧ ((gsk_sl_program_parse_body env program preproc).1 = true →
            vs'.length + fs'.length = 1) := by
      rcases parse_body_cases env program preproc with
        ⟨hb, hp⟩ | ⟨v, _, hp⟩ | ⟨v, _, hp⟩ | ⟨f, hp⟩
      · exact ⟨[], [], by rw [hp]; simp, by rw [hp]; simp, by simp, fun h => by simp [hb] at h⟩
      · exact ⟨[v], [], by rw [hp], by rw [hp]; simp, by simp, fun _ => by simp⟩
      · exact ⟨[v], [], by rw [hp], by rw [hp]; simp, by simp, fun _ => by simp⟩
      · exact ⟨[], [f], by rw [hp]; simp, by rw [hp], by simp, fun _ => by simp⟩
    obtain ⟨vs', fs', k1, k2, k3, k4⟩ := key
    rw [k1] at h1
    rw [k2] at h2
    refine ⟨vs' ++ vs, fs' ++ fs, by simpa using h1, by simpa using h2, ?_, fun h => ?_⟩
    · simp only [List.length_append]
      omega
    · have a := k4 h.1
      have b := h4 h.2
      simp only [List.length_append]
      omega

/-! ## Append-only sequences and the count of declarations -/

/-- C15: one resolver invocation leaves the previous variable sequence as the
beginning of the new one and the previous function sequence as the beginning
of the new one, nothing removed or reordered, and the two together grow by at
most one element. Hence between any two points `j ≤ k` of a parse run (after
`j` and after `k` resolver invocations) the earlier sequences are the
beginnings of the later ones, with at most `k - j` elements appended, and the
sequences `gsk_sl_program_parse` returns begin with the ones it was given. -/
theorem sequences_are_append_only (env : ParseCollaborators σ τ φ) :
    (∀ (program : GskSlProgram σ τ φ) (scope : σ) (preproc : GskSlPreprocessor),
      ∃ vs fs,
        (gsk_sl_program_parse_declaration env program scope preproc).program.vars
          = program.vars ++ vs
        ∧ (gsk_sl_program_parse_declaration env program scope preproc).program.functions
          = program.functions ++ fs
        ∧ vs.length + fs.length ≤ 1)
    ∧ (∀ (program : GskSlProgram σ τ φ) (preproc : GskSlPreprocessor) (j k : Nat), j ≤ k →
      ∃ vs fs,
        (resolver_invocations env k program preproc).2.1.vars
          = (resolver_invocations env j program preproc).2.1.vars ++ vs
        ∧ (resolver_invocations env k program preproc).2.1.functions
          = (resolver_invocations env j program preproc).2.1.functions ++ fs
        ∧ vs.length + fs.length ≤ k - j)
    ∧ (∀ (program : GskSlProgram σ τ φ) (preproc : GskSlPreprocessor) (fuel : Nat)
        (out : Bool × GskSlProgram σ τ φ × GskSlPreprocessor),
      gsk_sl_program_parse env fuel program preproc = some out →
      ∃ vs fs, out.2.1.vars = program.vars ++ vs
        ∧ out.2.1.functions = program.functions ++ fs) := by
  refine ⟨?_, ?_, ?_⟩
  · intro program scope preproc
    rcases declaration_cases env program scope preproc with
      ⟨_, hp, _⟩ | ⟨v, _, hp, _⟩ | ⟨v, _, hp, _⟩ | ⟨f, hp, _⟩
    · exact ⟨[], [], by rw [hp]; simp, by rw [hp]; simp, by simp⟩
    · exact ⟨[v], [], by rw [hp], by rw [hp]; simp, by simp⟩
    · exact ⟨[v], [], by rw [hp], by rw [hp]; simp, by simp⟩
    · exact ⟨[], [f], by rw [hp]; simp, by rw [hp], by simp⟩
  · intro program preproc j k hjk
    obtain ⟨d, rfl⟩ := Nat.exists_eq_add_of_le hjk
    rw [resolver_invocations_add]
    obtain ⟨vs, fs, h1, h2, h3, _⟩ := resolver_invocations_append env d
      (resolver_invocations env j program preproc).2.1
      (resolver_invocations env j program preproc).2.2
    exact ⟨vs, fs, h1, h2, by omega⟩
  · intro program preproc fuel out h
    rw [gsk_sl_program_parse, parse_loop_characterisation] at h
    obtain ⟨n, _, _, _, rfl⟩ := h
    obtain ⟨vs, fs, h1, h2, _, _⟩ := resolver_invocations_append env n program preproc
    exact ⟨vs, fs, h1, h2⟩

/-- C15 at the input `in int ; int main ( )` on a program that already has a
variable: the old sequences are kept and one element is appended to each. -/
theorem sequences_are_append_only_witness :
    gsk_sl_program_parse example_env 3 ⟨[], [⟨⟨"float", false, 0⟩, some "y"⟩], ["f"]⟩
        (stream [tok_qualifier, tok_int, tok_semicolon, tok_int, tok_ident "main",
          tok_left_paren, tok_close])
      = some (true,
          ⟨[], [⟨⟨"float", false, 0⟩, some "y"⟩] ++ [⟨⟨"int", false, 1⟩, none⟩],
            ["f"] ++ ["main"]⟩,
          ⟨[], []⟩)
    ∧ ∃ vs fs,
        (resolver_invocations example_env 2 ⟨[], [⟨⟨"float", false, 0⟩, some "y"⟩], ["f"]⟩
          (stream [tok_qualifier, tok_int, tok_semicolon, tok_int, tok_ident "main",
            tok_left_paren, tok_close])).2.1.vars
          = (resolver_invocations example_env 1 ⟨[], [⟨⟨"float", false, 0⟩, some "y"⟩], ["f"]⟩
              (stream [tok_qualifier, tok_int, tok_semicolon, tok_int, tok_ident "main",
                tok_left_paren, tok_close])).2.1.vars ++ vs
        ∧ (resolver_invocations example_env 2 ⟨[], [⟨⟨"float", false, 0⟩, some "y"⟩], ["f"]⟩
          (stream [tok_qualifier, tok_int, tok_semicolon, tok_int, tok_ident "main",
            tok_left_paren, tok_close])).2.1.functions
          = (resolver_invocations example_env 1 ⟨[], [⟨⟨"float", false, 0⟩, some "y"⟩], ["f"]⟩
              (stream [tok_qualifier, tok_int, tok_semicolon, tok_int, tok_ident "main",
                tok_left_paren, tok_close])).2.1.functions ++ fs
        ∧ vs.length + fs.length ≤ 2 - 1 :=
  ⟨rfl, (sequences_are_append_only example_env).2.1 _ _ 1 2 (by decide)⟩

/-- C18: a resolver invocation that returns TRUE has appended exactly one
element, either one Variable (the functions untouched) or one Function (the
variables untouched). Hence when `gsk_sl_program_parse` returns TRUE after `n`
resolver invocations, the number of Variables plus the number of Functions has
grown by exactly `n`; from a program with empty sequences it equals `n`. -/
theorem success_appends_exactly_one (env : ParseCollaborators σ τ φ) :
    (∀ (program : GskSlProgram σ τ φ) (scope : σ) (preproc : GskSlPreprocessor),
      (gsk_sl_program_parse_declaration env program scope preproc).success = true →
      (∃ v, (gsk_sl_program_parse_declaration env program scope preproc).program.vars
              = program.vars ++ [v]
          ∧ (gsk_sl_program_parse_declaration env program scope preproc).program.functions
              = program.functions)
      ∨ (∃ f, (gsk_sl_program_parse_declaration env program scope preproc).program.functions
              = program.functions ++ [f]
          ∧ (gsk_sl_program_parse_declaration env program scope preproc).program.vars
              = program.vars))
    ∧ (∀ (program : GskSlProgram σ τ φ) (preproc : GskSlPreprocessor) (fuel : Nat)
        (out : Bool × GskSlProgram σ τ φ × GskSlPreprocessor),
      gsk_sl_program_parse env fuel program preproc = some out → out.1 = true →
      ∃ n, n < fuel
        ∧ (resolver_invocations env n program preproc).1.length = n
        ∧ (∀ k, k < n → at_eof (resolver_invocations env k program preproc).2.2 = false)
        ∧ at_eof (resolver_invocations env n program preproc).2.2 = true
        ∧ out.2 = (resolver_invocations env n program preproc).2
        ∧ out.2.1.vars.length + out.2.1.functions.length
            = program.vars.length + program.functions.length + n
        ∧ (program.vars = [] → program.functions = [] →
            out.2.1.vars.length + out.2.1.functions.length = n)) := by
  refine ⟨?_, ?_⟩
  · intro program scope preproc hs
    rcases declaration_cases env program scope preproc with
      ⟨hf, _, _⟩ | ⟨v, _, hp, _⟩ | ⟨v, _, hp, _⟩ | ⟨f, hp, _⟩
    · rw [hf] at hs
      exact absurd hs (by decide)
    · exact Or.inl ⟨v, by rw [hp], by rw [hp]⟩
    · exact Or.inl ⟨v, by rw [hp], by rw [hp]⟩
    · exact Or.inr ⟨f, by rw [hp], by rw [hp]⟩
  · intro program preproc fuel out h htrue
    rw [gsk_sl_program_parse, parse_loop_characterisation] at h
    obtain ⟨n, hn, hk, he, rfl⟩ := h
    obtain ⟨vs, fs, h1, h2, _, h4⟩ := resolver_invocations_append env n program preproc
    have hlen := h4 htrue
    have hsum : (resolver_invocations env n program preproc).2.1.vars.length
        + (resolver_invocations env n program preproc).2.1.functions.length
        = program.vars.length + program.functions.length + n := by
      rw [h1, h2, List.length_append, List.length_append]
      omega
    refine ⟨n, hn, resolver_invocations_length env n program preproc, hk, he, rfl, hsum, ?_⟩
    intro hv hf
    simp only [hv, hf, List.length_nil] at hsum
    simpa using hsum

/-- C18 at the input `in int ;` and, in a full parse, `in int ; int main ( )`
on a fresh program: the resolver returns TRUE and appends the one Variable. -/
theorem success_appends_exactly_one_witness :
    gsk_sl_program_parse example_env 3 example_program
        (stream [tok_qualifier, tok_int, tok_semicolon, tok_int, tok_ident "main",
          tok_left_paren, tok_close])
      = some (true, ⟨[], [⟨⟨"int", false, 1⟩, none⟩], ["main"]⟩, ⟨[], []⟩)
    ∧ ((∃ v, (gsk_sl_program_parse_declaration example_env example_program []
                (stream [tok_qualifier, tok_int, tok_semicolon])).program.vars
              = example_program.vars ++ [v]
          ∧ (gsk_sl_program_parse_declaration example_env example_program []
                (stream [tok_qualifier, tok_int, tok_semicolon])).program.functions
              = example_program.functions)
      ∨ (∃ f, (gsk_sl_program_parse_declaration example_env example_program []
                (stream [tok_qualifier, tok_int, tok_semicolon])).program.functions
              = example_program.functions ++ [f]
          ∧ (gsk_sl_program_parse_declaration example_env example_program []
                (stream [tok_qualifier, tok_int, tok_semicolon])).program.vars
              = example_program.vars)) :=
  ⟨rfl, (success_appends_exactly_one example_env).1 example_program []
    (stream [tok_qualifier, tok_int, tok_semicolon]) rfl⟩

/-! ## The program and its root scope -/

/-- The root scope stays the result of passing the named variables of the
sequence, in order, to add-variable, through any number of resolver
invocations. -/
theorem resolver_invocations_scope (env : ParseCollaborators σ τ φ) (s0 : σ) (n : Nat)
    (program : GskSlProgram σ τ φ) (preproc : GskSlPreprocessor)
    (h : program.scope
      = (program.vars.filter is_named).foldl env.gsk_sl_scope_add_variable s0) :
    (resolver_invocations env n program preproc).2.1.scope
      = ((resolver_invocations env n program preproc).2.1.vars.filter is_named).foldl
          env.gsk_sl_scope_add_variable s0 := by
  induction n generalizing program preproc with
  | zero => simpa [resolver_invocations] using h
  | succ n ih =>
    simp only [resolver_invocations]
    apply ih
    rcases parse_body_cases env program preproc with
      ⟨_, hp⟩ | ⟨v, hv, hp⟩ | ⟨v, hv, hp⟩ | ⟨f, hp⟩
    · rw [hp]
      exact h
    · rw [hp]
      simpa [List.filter_append, hv] using h
    · rw [hp]
      simp [List.filter_append, hv, List.foldl_append, ← h]
    · rw [hp]
      exact h

/-- Looking a name up among variables of which only the named ones are kept
finds what it finds among all of them. -/
theorem find_named (l : List (GskSlVariable τ)) (name : String) :
    (l.filter is_named).find? (fun v => v.name == some name)
      = l.find? (fun v => v.name == some name) := by
  induction l with
  | nil => rfl
  | cons v l ih =>
    cases hn : v.name with
    | none => simp [List.filter, is_named, hn, ih]
    | some m => simp [List.filter, is_named, hn, List.find?, ih]

/-- In a scope filled from a fresh one, a name is registered for the first
variable that was passed with it. -/
theorem lookup_foldl_add (l : List (GskSlVariable τ)) (name : String) :
    gsk_sl_scope_lookup_variable (l.foldl gsk_sl_scope_add_variable gsk_sl_scope_new) name
      = l.find? (fun v => v.name == some name) := by
  induction l using List.reverseRecOn with
  | nil => rfl
  | append_singleton l v ih =>
    rw [List.foldl_append, List.find?_append]
    simp only [List.foldl_cons, List.foldl_nil]
    simp only [gsk_sl_scope_lookup_variable] at ih ⊢
    rw [← ih]
    simp only [gsk_sl_scope_add_variable]
    split
    · rename_i hany
      by_cases hv : v.name = some name
      · obtain ⟨u, hu, hname⟩ := List.any_eq_true.mp hany
        have hu' : (fun w : GskSlVariable τ => w.name == some name) u = true := by
          simpa [hv] using hname
        cases hf : (l.foldl gsk_sl_scope_add_variable gsk_sl_scope_new).table.find?
            (fun w => w.name == some name) with
        | none =>
          have := List.find?_eq_none.mp hf u hu
          exact absurd hu' this
        | some w => simp
      · have hb : (v.name == some name) = false := by simpa using hv
        simp [List.find?, hb]
    · simp [List.find?_append]

/-- A scope filled from a fresh one holds, in its table and among its
failures, only variables that were passed to it. -/
theorem mem_of_foldl_add (l : List (GskSlVariable τ)) (s : GskSlScope τ)
    (u : GskSlVariable τ)
    (h : u ∈ (l.foldl gsk_sl_scope_add_variable s).table
      ∨ u ∈ (l.foldl gsk_sl_scope_add_variable s).failures) :
    u ∈ s.table ∨ u ∈ s.failures ∨ u ∈ l := by
  induction l generalizing s with
  | nil => simpa using h
  | cons v l ih =>
    rcases ih (gsk_sl_scope_add_variable s v) h with h1 | h1 | h1
    · simp only [gsk_sl_scope_add_variable] at h1
      split at h1
      · exact Or.inl h1
      · rcases List.mem_append.mp h1 with h2 | h2
        · exact Or.inl h2
        · exact Or.inr (Or.inr (by simpa using Or.inl (List.mem_singleton.mp h2)))
    · simp only [gsk_sl_scope_add_variable] at h1
      split at h1
      · rcases List.mem_append.mp h1 with h2 | h2
        · exact Or.inr (Or.inl h2)
        · exact Or.inr (Or.inr (by simpa using Or.inl (List.mem_singleton.mp h2)))
      · exact Or.inr (Or.inl h1)
    · exact Or.inr (Or.inr (List.mem_cons_of_mem _ h1))

/-- C14, as amended: starting from a fresh Program with the scope of the
specification, after any number of resolver invocations, and so after any run
of `gsk_sl_program_parse`, the root scope is what results from passing exactly
the named Variables of the sequence, in order, to add-variable. The Variable
registered under a name is the first one of the sequence with that name (a
later one with the same name is in the sequence, reported as a failure and not
registered), and a Variable without a name is in the sequence but was never
passed to add-variable. -/
theorem scope_follows_variable_sequence (env : ParseCollaborators (GskSlScope τ) τ φ)
    (preproc : GskSlPreprocessor) :
    (∀ n, ScopeFollowsSequence
      (resolver_invocations (with_modelled_scope env) n
        (gsk_sl_program_init gsk_sl_scope_new) preproc).2.1)
    ∧ (∀ fuel out,
        gsk_sl_program_parse (with_modelled_scope env) fuel
          (gsk_sl_program_init gsk_sl_scope_new) preproc = some out →
        ScopeFollowsSequence out.2.1) := by
  have key : ∀ n, ScopeFollowsSequence
      (resolver_invocations (with_modelled_scope env) n
        (gsk_sl_program_init gsk_sl_scope_new) preproc).2.1 := by
    intro n
    have h := resolver_invocations_scope (with_modelled_scope env) gsk_sl_scope_new n
      (gsk_sl_program_init gsk_sl_scope_new) preproc rfl
    have hadd : (with_modelled_scope env).gsk_sl_scope_add_variable
        = gsk_sl_scope_add_variable := rfl
    rw [hadd] at h
    refine ⟨h, ?_, ?_⟩
    · intro name
      rw [h, lookup_foldl_add, find_named]
    · intro v hv hname
      have hnot : ∀ u ∈ (resolver_invocations (with_modelled_scope env) n
          (gsk_sl_program_init gsk_sl_scope_new) preproc).2.1.vars.filter is_named,
          u ≠ v := by
        intro u hu e
        have := (List.mem_filter.mp hu).2
        rw [e] at this
        simp [is_named, hname] at this
      rw [h]
      constructor
      · intro hmem
        rcases mem_of_foldl_add _ _ v (Or.inl hmem) with h1 | h1 | h1
        · simp [gsk_sl_scope_new] at h1
        · simp [gsk_sl_scope_new] at h1
        · exact hnot v h1 rfl
      · intro hmem
        rcases mem_of_foldl_add _ _ v (Or.inr hmem) with h1 | h1 | h1
        · simp [gsk_sl_scope_new] at h1
        · simp [gsk_sl_scope_new] at h1
        · exact hnot v h1 rfl
  refine ⟨key, ?_⟩
  intro fuel out h
  rw [gsk_sl_program_parse, parse_loop_characterisation] at h
  obtain ⟨n, _, _, _, rfl⟩ := h
  exact key n

/-- C14, as amended, at the input `int x ; float x ; int ;`: the scope holds
the first `x`, the second is among the failures, the unnamed variable is in
neither. -/
theorem scope_follows_variable_sequence_witness :
    gsk_sl_program_parse example_scope_env 4 (gsk_sl_program_init gsk_sl_scope_new)
        (stream [tok_int, tok_ident "x", tok_semicolon, tok_float, tok_ident "x",
          tok_semicolon, tok_int, tok_semicolon])
      = some (true,
          ⟨⟨[⟨⟨"int", false, 0⟩, some "x"⟩], [⟨⟨"float", false, 0⟩, some "x"⟩]⟩,
            [⟨⟨"int", false, 0⟩, some "x"⟩, ⟨⟨"float", false, 0⟩, some "x"⟩,
              ⟨⟨"int", false, 0⟩, none⟩], []⟩,
          ⟨[], []⟩)
    ∧ ScopeFollowsSequence
        (⟨⟨[⟨⟨"int", false, 0⟩, some "x"⟩], [⟨⟨"float", false, 0⟩, some "x"⟩]⟩,
            [⟨⟨"int", false, 0⟩, some "x"⟩, ⟨⟨"float", false, 0⟩, some "x"⟩,
              ⟨⟨"int", false, 0⟩, none⟩], []⟩ :
          GskSlProgram (GskSlScope String) String String) :=
  ⟨rfl, (scope_follows_variable_sequence example_scope_env
    (stream [tok_int, tok_ident "x", tok_semicolon, tok_float, tok_ident "x",
      tok_semicolon, tok_int, tok_semicolon])).2 4 _ rfl⟩

/-- C14 fails as stated: after parsing `int x ; float x ;` from a fresh
Program the second Variable is in the sequence and has the name `x`, but the
root scope has the first Variable registered under `x`, not this one. -/
theorem named_variable_not_registered :
    ∃ out v,
      gsk_sl_program_parse example_scope_env 3 (gsk_sl_program_init gsk_sl_scope_new)
          (stream [tok_int, tok_ident "x", tok_semicolon, tok_float, tok_ident "x",
            tok_semicolon]) = some out
      ∧ v ∈ out.2.1.vars ∧ v.name = some "x"
      ∧ gsk_sl_scope_lookup_variable out.2.1.scope "x" ≠ some v
      ∧ v ∉ out.2.1.scope.table :=
  ⟨_, ⟨⟨"float", false, 0⟩, some "x"⟩, rfl, by decide, rfl, by decide, by decide⟩

/-! ## Named variables, duplicate names and failing decorations -/

/-- The resolver on a named variable declaration `T name ;` whose decoration
parse succeeds: TRUE, the variable appended and passed to add-variable, both
tokens consumed. -/
theorem named_variable_declaration_resolved (env : ParseCollaborators σ τ φ)
    (program : GskSlProgram σ τ φ) (scope : σ) (preproc : GskSlPreprocessor) (T : τ)
    (name : String) (h : NamedVariableDeclaration env scope preproc T name) :
    gsk_sl_program_parse_declaration env program scope preproc
      = ⟨true,
          ⟨program.scope, program.vars ++ [declared_variable env scope preproc T name],
            program.functions⟩,
          env.gsk_sl_scope_add_variable scope (declared_variable env scope preproc T name),
          after_named_variable env scope preproc⟩ := by
  obtain ⟨_, hD, hT, hI, hS⟩ := h
  simp only [type_parsed, decoration_parsed] at hD hT hI hS
  simp [gsk_sl_program_parse_declaration, gsk_sl_program_parse_variable, type_parsed,
    decoration_parsed, declared_variable, after_named_variable, hT, hI, hS, hD,
    gsk_sl_token_is, caller_access]

/-- C16: on an input made of two named variable declarations with the same
name, `T1 x ; T2 x ;`, with succeeding decoration and type parses,
`gsk_sl_program_parse` returns with both Variables appended to the sequence,
in declaration order, whatever the scope's add-variable does with them: each
is appended and then passed to add-variable, whose outcome is not looked at.
With the scope of the specification the second registration is a reported
failure that leaves the table as it was. -/
theorem duplicate_names_both_appended (env : ParseCollaborators σ τ φ)
    (program : GskSlProgram σ τ φ) (preproc : GskSlPreprocessor) (T1 T2 : τ) (name : String)
    (h1 : NamedVariableDeclaration env program.scope preproc T1 name)
    (h2 : NamedVariableDeclaration env
      (env.gsk_sl_scope_add_variable program.scope
        (declared_variable env program.scope preproc T1 name))
      (after_named_variable env program.scope preproc) T2 name)
    (hE : at_eof (after_named_variable env
      (env.gsk_sl_scope_add_variable program.scope
        (declared_variable env program.scope preproc T1 name))
      (after_named_variable env program.scope preproc)) = true) :
    (∀ fuel, 2 < fuel →
      gsk_sl_program_parse env fuel program preproc
        = some (true,
            ⟨env.gsk_sl_scope_add_variable
                (env.gsk_sl_scope_add_variable program.scope
                  (declared_variable env program.scope preproc T1 name))
                (declared_variable env
                  (env.gsk_sl_scope_add_variable program.scope
                    (declared_variable env program.scope preproc T1 name))
                  (after_named_variable env program.scope preproc) T2 name),
              program.vars ++
                [declared_variable env program.scope preproc T1 name,
                  declared_variable env
                    (env.gsk_sl_scope_add_variable program.scope
                      (declared_variable env program.scope preproc T1 name))
                    (after_named_variable env program.scope preproc) T2 name],
              program.functions⟩,
            after_named_variable env
              (env.gsk_sl_scope_add_variable program.scope
                (declared_variable env program.scope preproc T1 name))
              (after_named_variable env program.scope preproc)))
    ∧ (∀ (s : GskSlScope τ) (u1 u2 : GskSlVariable τ), u1.name = u2.name →
        gsk_sl_scope_add_variable (gsk_sl_scope_add_variable s u1) u2
          = ⟨(gsk_sl_scope_add_variable s u1).table,
              (gsk_sl_scope_add_variable s u1).failures ++ [u2]⟩) := by
  refine ⟨?_, ?_⟩
  · intro fuel hfuel
    have e1 := h1.1
    have e2 := h2.1
    rw [gsk_sl_program_parse, parse_loop_characterisation]
    refine ⟨2, hfuel, ?_, ?_, ?_⟩
    · intro k hk
      have hk' : k = 0 ∨ k = 1 := by omega
      rcases hk' with rfl | rfl
      · simpa [resolver_invocations] using e1
      · simpa [resolver_invocations, gsk_sl_program_parse_body,
          named_variable_declaration_resolved env program program.scope preproc T1 name h1]
          using e2
    · simp only [resolver_invocations, gsk_sl_program_parse_body,
        named_variable_declaration_resolved env program program.scope preproc T1 name h1,
        named_variable_declaration_resolved env _ _ _ T2 name h2]
      exact hE
    · simp only [resolver_invocations, gsk_sl_program_parse_body,
        named_variable_declaration_resolved env program program.scope preproc T1 name h1,
        named_variable_declaration_resolved env _ _ _ T2 name h2]
      simp
  · intro s u1 u2 hname
    have hany : (gsk_sl_scope_add_variable s u1).table.any (fun v => v.name == u2.name)
        = true := by
      simp only [gsk_sl_scope_add_variable]
      split
      · rename_i h
        simpa [hname] using h
      · simp [hname]
    conv_lhs => rw [gsk_sl_scope_add_variable]
    simp [hany]

/-- C16 at the input `int x ; int x ;` with the scope of the specification:
both Variables are in the sequence, the second registration is a failure. -/
theorem duplicate_names_both_appended_witness :
    gsk_sl_program_parse example_scope_env 3 (gsk_sl_program_init gsk_sl_scope_new)
        (stream [tok_int, tok_ident "x", tok_semicolon, tok_int, tok_ident "x",
          tok_semicolon])
      = some (true,
          ⟨⟨[⟨⟨"int", false, 0⟩, some "x"⟩], [⟨⟨"int", false, 0⟩, some "x"⟩]⟩,
            [⟨⟨"int", false, 0⟩, some "x"⟩, ⟨⟨"int", false, 0⟩, some "x"⟩], []⟩,
          ⟨[], []⟩) :=
  (duplicate_names_both_appended example_scope_env (gsk_sl_program_init gsk_sl_scope_new)
    (stream [tok_int, tok_ident "x", tok_semicolon, tok_int, tok_ident "x", tok_semicolon])
    "int" "int" "x" ⟨rfl, rfl, rfl, rfl, rfl⟩ ⟨rfl, rfl, rfl, rfl, rfl⟩ rfl).1 3 (by decide)

/-- C17, as amended: for an input that is one named variable declaration
`T name ;` followed by end-of-input, with a succeeding decoration parse (the
input `int x;`), `gsk_sl_program_parse` on a fresh Program returns TRUE with
exactly one Variable, which carries the name `name` and the base type `T`, and
zero Functions; `gsk_sl_program_print` of that Program leaves the buffer as the
variable printer leaves it, followed by ";\n", and no function section. -/
theorem single_named_variable (env : ParseCollaborators σ τ φ)
    (printers : PrintCollaborators τ φ) (fresh_scope : σ) (preproc : GskSlPreprocessor)
    (T : τ) (name : String) (buffer : String)
    (h : NamedVariableDeclaration env fresh_scope preproc T name)
    (hE : at_eof (after_named_variable env fresh_scope preproc) = true) :
    (∀ fuel, 1 < fuel →
      gsk_sl_program_parse env fuel (gsk_sl_program_init fresh_scope) preproc
        = some (true,
            ⟨env.gsk_sl_scope_add_variable fresh_scope
                (declared_variable env fresh_scope preproc T name),
              [declared_variable env fresh_scope preproc T name], []⟩,
            after_named_variable env fresh_scope preproc))
    ∧ (declared_variable env fresh_scope preproc T name).name = some name
    ∧ (declared_variable env fresh_scope preproc T name).type.type = T
    ∧ gsk_sl_program_print printers
        (⟨env.gsk_sl_scope_add_variable fresh_scope
            (declared_variable env fresh_scope preproc T name),
          [declared_variable env fresh_scope preproc T name], []⟩ : GskSlProgram σ τ φ)
        buffer
      = printers.gsk_sl_variable_print (declared_variable env fresh_scope preproc T name)
          buffer ++ ";\n" := by
  refine ⟨?_, rfl, rfl, rfl⟩
  intro fuel hfuel
  rw [gsk_sl_program_parse, parse_loop_characterisation]
  refine ⟨1, hfuel, ?_, ?_, ?_⟩
  · intro k hk
    have hk' : k = 0 := by omega
    subst hk'
    simpa [resolver_invocations] using h.1
  · simp only [resolver_invocations, gsk_sl_program_parse_body, gsk_sl_program_init,
      named_variable_declaration_resolved env _ _ _ T name h]
    exact hE
  · simp only [resolver_invocations, gsk_sl_program_parse_body, gsk_sl_program_init,
      named_variable_declaration_resolved env _ _ _ T name h]
    simp

/-- C17, as amended, at the input `int x ;` for the example collaborators: one
Variable named `x` of base type `int`, printed as `int x;` and a line break. -/
theorem single_named_variable_witness :
    gsk_sl_program_parse example_env 2 example_program
        (stream [tok_int, tok_ident "x", tok_semicolon])
      = some (true,
          ⟨[⟨⟨"int", false, 0⟩, some "x"⟩], [⟨⟨"int", false, 0⟩, some "x"⟩], []⟩, ⟨[], []⟩)
    ∧ gsk_sl_program_print example_printers
        (⟨[⟨⟨"int", false, 0⟩, some "x"⟩], [⟨⟨"int", false, 0⟩, some "x"⟩], []⟩ :
          GskSlProgram (List (GskSlVariable String)) String String) ""
      = "int x;\n" :=
  ⟨(single_named_variable example_env example_printers []
      (stream [tok_int, tok_ident "x", tok_semicolon]) "int" "x" ""
      ⟨rfl, rfl, rfl, rfl, rfl⟩ rfl).1 2 (by decide),
    (single_named_variable example_env example_printers []
      (stream [tok_int, tok_ident "x", tok_semicolon]) "int" "x" ""
      ⟨rfl, rfl, rfl, rfl, rfl⟩ rfl).2.2.2.trans (by decide)⟩

/-- C17 fails as stated: after parsing `int x ;` the one Variable of the
Program is not anonymous, it has the name `x`. -/
theorem int_x_is_not_anonymous :
    ∃ out,
      gsk_sl_program_parse example_env 2 example_program
          (stream [tok_int, tok_ident "x", tok_semicolon]) = some out
      ∧ out.2.1.vars = [⟨⟨"int", false, 0⟩, some "x"⟩]
      ∧ ¬ ∀ v ∈ out.2.1.vars, v.name = none :=
  ⟨_, rfl, rfl, by decide⟩

/-- C19: a FALSE result of the resolver does not mean that the Program is
unchanged. With a failing decoration parse followed by a type, an identifier
and a semicolon, the resolver returns FALSE and yet appends the named Variable
and passes it to the scope's add-variable; followed by a type, an identifier
and a function that parses, it returns FALSE and yet appends the Function;
whereas with the same failing decoration parse the anonymous form, a type and
a semicolon, appends nothing. -/
theorem false_result_may_append (env : ParseCollaborators σ τ φ)
    (program : GskSlProgram σ τ φ) (scope : σ) :
    (∀ (preproc : GskSlPreprocessor) (T : τ),
      (decoration_parsed env scope preproc).success = false →
      (type_parsed env scope preproc).type = some T →
      (gsk_sl_preprocessor_get (type_parsed env scope preproc).preproc).type
        = .GSK_SL_TOKEN_IDENTIFIER →
      (gsk_sl_preprocessor_get
          (gsk_sl_preprocessor_consume (type_parsed env scope preproc).preproc)).type
        = .GSK_SL_TOKEN_SEMICOLON →
      gsk_sl_program_parse_declaration env program scope preproc
        = ⟨false,
            ⟨program.scope,
              program.vars ++
                [⟨⟨T, false, caller_access (decoration_parsed env scope preproc).decoration⟩,
                  some (gsk_sl_preprocessor_get (type_parsed env scope preproc).preproc).str⟩],
              program.functions⟩,
            env.gsk_sl_scope_add_variable scope
              ⟨⟨T, false, caller_access (decoration_parsed env scope preproc).decoration⟩,
                some (gsk_sl_preprocessor_get (type_parsed env scope preproc).preproc).str⟩,
            gsk_sl_preprocessor_consume
              (gsk_sl_preprocessor_consume (type_parsed env scope preproc).preproc)⟩)
    ∧ (∀ (preproc : GskSlPreprocessor) (T : τ) (f : φ),
      (decoration_parsed env scope preproc).success = false →
      (type_parsed env scope preproc).type = some T →
      (gsk_sl_preprocessor_get (type_parsed env scope preproc).preproc).type
        = .GSK_SL_TOKEN_IDENTIFIER →
      (gsk_sl_preprocessor_get
          (gsk_sl_preprocessor_consume (type_parsed env scope preproc).preproc)).type
        = .GSK_SL_TOKEN_LEFT_PAREN →
      (env.gsk_sl_function_new_parse scope
          (gsk_sl_preprocessor_consume (type_parsed env scope preproc).preproc) T
          (gsk_sl_preprocessor_get (type_parsed env scope preproc).preproc).str).function
        = some f →
      gsk_sl_program_parse_declaration env program scope preproc
        = ⟨false, ⟨program.scope, program.vars, program.functions ++ [f]⟩, scope,
            (env.gsk_sl_function_new_parse scope
              (gsk_sl_preprocessor_consume (type_parsed env scope preproc).preproc) T
              (gsk_sl_preprocessor_get (type_parsed env scope preproc).preproc).str).preproc⟩)
    ∧ (∀ (preproc : GskSlPreprocessor) (T : τ),
      (decoration_parsed env scope preproc).success = false →
      (type_parsed env scope preproc).type = some T →
      (gsk_sl_preprocessor_get (type_parsed env scope preproc).preproc).type
        = .GSK_SL_TOKEN_SEMICOLON →
      gsk_sl_program_parse_declaration env program scope preproc
        = ⟨false, program, scope, (type_parsed env scope preproc).preproc⟩) := by
  refine ⟨?_, ?_, ?_⟩
  · intro preproc T hD hT hI hS
    simp only [type_parsed, decoration_parsed] at hD hT hI hS
    simp [gsk_sl_program_parse_declaration, gsk_sl_program_parse_variable, type_parsed,
      decoration_parsed, hT, hI, hS, hD, gsk_sl_token_is, gsk_sl_pointer_type_new,
      gsk_sl_variable_new, caller_access]
  · intro preproc T f hD hT hI hP hF
    simp only [type_parsed, decoration_parsed] at hD hT hI hP hF
    simp [gsk_sl_program_parse_declaration, type_parsed, decoration_parsed, hT, hI, hP, hD,
      hF, gsk_sl_token_is]
  · intro preproc T hD hT hS
    simp only [type_parsed, decoration_parsed] at hD hT hS
    simp [gsk_sl_program_parse_declaration, type_parsed, decoration_parsed, hT, hS, hD,
      gsk_sl_token_is]

/-- C19 at the inputs `layout int x ;`, `layout int main ( )` and
`layout int ;`, where the decoration parser fails on `layout`: FALSE each time,
with the Variable appended and registered, the Function appended, and nothing
appended. -/
theorem false_result_may_append_witness :
    gsk_sl_program_parse_declaration example_env example_program []
        (stream [tok_bad_decoration, tok_int, tok_ident "x", tok_semicolon])
      = ⟨false, ⟨[], [⟨⟨"int", false, 0⟩, some "x"⟩], []⟩, [⟨⟨"int", false, 0⟩, some "x"⟩],
          ⟨[], ["Unknown decoration"]⟩⟩
    ∧ gsk_sl_program_parse_declaration example_env example_program []
        (stream [tok_bad_decoration, tok_int, tok_ident "main", tok_left_paren, tok_close])
      = ⟨false, ⟨[], [], ["main"]⟩, [], ⟨[], ["Unknown decoration"]⟩⟩
    ∧ gsk_sl_program_parse_declaration example_env example_program []
        (stream [tok_bad_decoration, tok_int, tok_semicolon])
      = ⟨false, example_program, [], ⟨[tok_semicolon], ["Unknown decoration"]⟩⟩ :=
  ⟨(false_result_may_append example_env example_program []).1
      (stream [tok_bad_decoration, tok_int, tok_ident "x", tok_semicolon]) "int"
      rfl rfl rfl rfl,
    (false_result_may_append example_env example_program []).2.1
      (stream [tok_bad_decoration, tok_int, tok_ident "main", tok_left_paren, tok_close])
      "int" "main" rfl rfl rfl rfl rfl,
    (false_result_may_append example_env example_program []).2.2
      (stream [tok_bad_decoration, tok_int, tok_semicolon]) "int" rfl rfl rfl⟩

/-! ## The binary emission -/

/-- The first loop of the emission sends one identifier request for every
variable, in order, and leaves the entry point alone. -/
theorem write_spv_variables_trace (variable_id : GskSlVariable τ → List (WriterCall τ φ) → Nat)
    (function_id : φ → List (WriterCall τ φ) → Nat) (name : φ → String)
    (l : List (GskSlVariable τ)) (writer : GskSpvWriter τ φ) :
    gsk_sl_program_write_spv_variables (tracing_writer variable_id function_id name) l writer
      = ⟨writer.calls ++ l.map .get_id_for_variable, writer.entry_point⟩ := by
  induction l generalizing writer with
  | nil => simp [gsk_sl_program_write_spv_variables]
  | cons v l ih =>
    simp only [gsk_sl_program_write_spv_variables, ih]
    simp [tracing_writer]

/-- The second loop of the emission makes, for every function in order, the
calls the specification prescribes, and leaves as entry point the identifier
of the last function named "main", or the former one when there is none. -/
theorem write_spv_functions_trace (variable_id : GskSlVariable τ → List (WriterCall τ φ) → Nat)
    (function_id : φ → List (WriterCall τ φ) → Nat) (name : φ → String)
    (l : List φ) (writer : GskSpvWriter τ φ) :
    ∃ ids : List Nat, ids.length = l.length
      ∧ (gsk_sl_program_write_spv_functions (tracing_writer variable_id function_id name)
            l writer).calls
          = writer.calls ++ ((l.zip ids).map fun p => function_calls name p.1 p.2).flatten
      ∧ (gsk_sl_program_write_spv_functions (tracing_writer variable_id function_id name)
            l writer).entry_point
          = (last_main name (l.zip ids)).or writer.entry_point := by
  induction l generalizing writer with
  | nil => exact ⟨[], rfl, by simp [gsk_sl_program_write_spv_functions], by
      simp [gsk_sl_program_write_spv_functions, last_main]⟩
  | cons f l ih =>
    have hname : (tracing_writer variable_id function_id name).gsk_sl_function_get_name f
        = name f := rfl
    by_cases hmain : name f = "main"
    · have step : gsk_sl_program_write_spv_functions
          (tracing_writer variable_id function_id name) (f :: l) writer
          = gsk_sl_program_write_spv_functions (tracing_writer variable_id function_id name) l
              ⟨writer.calls ++ [.function_write_spv f (function_id f writer.calls)]
                ++ [.set_entry_point (function_id f writer.calls)],
                some (function_id f writer.calls)⟩ := by
        rw [gsk_sl_program_write_spv_functions]
        simp only [hname, g_str_equal, hmain, decide_True, if_true]
        rfl
      obtain ⟨ids, hlen, hcalls, hentry⟩ := ih
        ⟨writer.calls ++ [.function_write_spv f (function_id f writer.calls)]
          ++ [.set_entry_point (function_id f writer.calls)],
          some (function_id f writer.calls)⟩
      refine ⟨function_id f writer.calls :: ids, by simp [hlen], ?_, ?_⟩
      · rw [step, hcalls]
        simp [function_calls, hmain]
      · rw [step, hentry]
        simp only [last_main, List.zip_cons_cons, List.filter_cons, hmain, decide_True,
          if_true, List.getLast?_cons]
        cases (List.filter (fun p : φ × Nat => decide (name p.1 = "main"))
          (l.zip ids)).getLast? <;> simp
    · have step : gsk_sl_program_write_spv_functions
          (tracing_writer variable_id function_id name) (f :: l) writer
          = gsk_sl_program_write_spv_functions (tracing_writer variable_id function_id name) l
              ⟨writer.calls ++ [.function_write_spv f (function_id f writer.calls)],
                writer.entry_point⟩ := by
        rw [gsk_sl_program_write_spv_functions]
        simp only [hname, g_str_equal, hmain, decide_False]
        rfl
      obtain ⟨ids, hlen, hcalls, hentry⟩ := ih
        ⟨writer.calls ++ [.function_write_spv f (function_id f writer.calls)],
          writer.entry_point⟩
      refine ⟨function_id f writer.calls :: ids, by simp [hlen], ?_, ?_⟩
      · rw [step, hcalls]
        simp [function_calls, hmain]
      · rw [step, hentry]
        simp [last_main, List.filter_cons, hmain]

/-- The calls of `gsk_sl_program_write_spv`: the identifier requests, then the
calls for every function, with the entry point as the second loop leaves it. -/
theorem write_spv_trace (variable_id : GskSlVariable τ → List (WriterCall τ φ) → Nat)
    (function_id : φ → List (WriterCall τ φ) → Nat) (name : φ → String)
    (program : GskSlProgram σ τ φ) (writer : GskSpvWriter τ φ) :
    ∃ ids : List Nat, ids.length = program.functions.length
      ∧ (gsk_sl_program_write_spv (tracing_writer variable_id function_id name)
            program writer).calls
          = writer.calls ++ program.vars.map .get_id_for_variable
            ++ ((program.functions.zip ids).map fun p => function_calls name p.1 p.2).flatten
      ∧ (gsk_sl_program_write_spv (tracing_writer variable_id function_id name)
            program writer).entry_point
          = (last_main name (program.functions.zip ids)).or writer.entry_point := by
  obtain ⟨ids, hlen, hcalls, hentry⟩ := write_spv_functions_trace variable_id function_id
    name program.functions
    (gsk_sl_program_write_spv_variables (tracing_writer variable_id function_id name)
      program.vars writer)
  rw [write_spv_variables_trace] at hcalls hentry
  refine ⟨ids, hlen, ?_, ?_⟩
  · rw [gsk_sl_program_write_spv, write_spv_variables_trace]
    exact hcalls
  · rw [gsk_sl_program_write_spv, write_spv_variables_trace]
    exact hentry

/-- Leaving the entry-point registrations out of the calls for the functions
leaves their emissions, in order. -/
theorem function_calls_emissions (name : φ → String) (ps : List (φ × Nat)) :
    ((ps.map fun p => (function_calls name p.1 p.2 : List (WriterCall τ φ))).flatten).filter
        (fun c => !is_entry_point_registration c)
      = ps.map fun p => .function_write_spv p.1 p.2 := by
  induction ps with
  | nil => rfl
  | cons p ps ih =>
    simp only [List.map_cons, List.flatten_cons, List.filter_append, ih]
    by_cases h : name p.1 = "main" <;>
      simp [function_calls, h, is_entry_point_registration]

/-- The entry-point registrations among the calls for the functions are those
of the functions named "main", in order, each with its own identifier. -/
theorem function_calls_registrations (name : φ → String) (ps : List (φ × Nat)) :
    ((ps.map fun p => (function_calls name p.1 p.2 : List (WriterCall τ φ))).flatten).filter
        is_entry_point_registration
      = (ps.filter fun p => name p.1 = "main").map fun p => .set_entry_point p.2 := by
  induction ps with
  | nil => rfl
  | cons p ps ih =>
    simp only [List.map_cons, List.flatten_cons, List.filter_append, ih]
    by_cases h : name p.1 = "main" <;>
      simp [function_calls, h, is_entry_point_registration, List.filter_cons]

/-- No call for a function is an identifier request for a variable. -/
theorem function_calls_no_request (name : φ → String) (ps : List (φ × Nat))
    (c : WriterCall τ φ)
    (hc : c ∈ (ps.map fun p => (function_calls name p.1 p.2 : List (WriterCall τ φ))).flatten) :
    is_identifier_request c = false := by
  simp only [List.mem_flatten, List.mem_map] at hc
  obtain ⟨l, ⟨p, _, rfl⟩, hcl⟩ := hc
  by_cases h : name p.1 = "main" <;>
    simp [function_calls, h] at hcl <;>
    rcases hcl with rfl | rfl <;> rfl

/-- A function of the list is paired with an identifier when there are as many
identifiers as functions. -/
theorem exists_mem_zip (l : List φ) (ids : List Nat) (h : ids.length = l.length) (f : φ)
    (hf : f ∈ l) : ∃ id, (f, id) ∈ l.zip ids := by
  induction l generalizing ids with
  | nil => cases hf
  | cons g l ih =>
    cases ids with
    | nil => simp at h
    | cons i ids =>
      rcases List.mem_cons.mp hf with rfl | hf'
      · exact ⟨i, by simp⟩
      · obtain ⟨id, hid⟩ := ih ids (by simpa using h) hf'
        exact ⟨id, by simp [hid]⟩

/-- C11, as amended: the calls that `gsk_sl_program_write_spv` makes are
exactly one identifier request for each Variable, in insertion order, followed
by the calls `rest` for the Functions, in insertion order: for each Function
its emission, directly followed, when the function is named "main", by the
registration of its identifier as entry point. None of `rest` is an identifier
request and, the registrations left out, `rest` is one emission per Function.
So every variable's identifier request precedes the emission of every
function, wherever the variable was declared, and the orchestrator issues no
identifier request once the first emission has started. -/
theorem identifier_requests_precede_emissions
    (variable_id : GskSlVariable τ → List (WriterCall τ φ) → Nat)
    (function_id : φ → List (WriterCall τ φ) → Nat) (name : φ → String)
    (program : GskSlProgram σ τ φ) (writer : GskSpvWriter τ φ) :
    ∃ (ids : List Nat) (rest : List (WriterCall τ φ)),
      ids.length = program.functions.length
      ∧ rest = ((program.functions.zip ids).map fun p =>
                  (.function_write_spv p.1 p.2 : WriterCall τ φ)
                    :: (if name p.1 = "main" then [.set_entry_point p.2] else [])).flatten
      ∧ (gsk_sl_program_write_spv (tracing_writer variable_id function_id name)
            program writer).calls
          = writer.calls ++ program.vars.map .get_id_for_variable ++ rest
      ∧ rest.filter (fun c => !is_entry_point_registration c)
          = (program.functions.zip ids).map (fun p => .function_write_spv p.1 p.2)
      ∧ (∀ c ∈ rest, is_identifier_request c = false)
      ∧ ((∀ f ∈ program.functions, name f ≠ "main") →
          (gsk_sl_program_write_spv (tracing_writer variable_id function_id name)
              program writer).calls
            = writer.calls ++ program.vars.map .get_id_for_variable
              ++ (program.functions.zip ids).map (fun p => .function_write_spv p.1 p.2)) := by
  obtain ⟨ids, hlen, hcalls, _⟩ := write_spv_trace variable_id function_id name program writer
  refine ⟨ids, _, hlen, rfl, hcalls, function_calls_emissions name _,
    fun c hc => function_calls_no_request name _ c hc, ?_⟩
  intro hno
  rw [hcalls]
  congr 1
  have hall : ∀ p ∈ program.functions.zip ids,
      (function_calls name p.1 p.2 : List (WriterCall τ φ)) = [.function_write_spv p.1 p.2] := by
    intro p hp
    have := hno p.1 (List.of_mem_zip hp).1
    simp [function_calls, this]
  generalize program.functions.zip ids = ps at hall
  induction ps with
  | nil => rfl
  | cons p ps ih =>
    simp only [List.map_cons, List.flatten_cons]
    rw [hall p (List.mem_cons_self _ _), ih fun q hq => hall q (List.mem_cons_of_mem _ hq)]
    rfl

/-- C11, as amended, for a program with the variables `x`, `y` and the
functions `f`, `main`: two identifier requests, then the emission of `f`, the
emission of `main` and the registration of `main`. -/
theorem identifier_requests_precede_emissions_witness :
    (gsk_sl_program_write_spv example_writer
        (⟨(), [⟨⟨"int", false, 0⟩, some "x"⟩, ⟨⟨"int", false, 0⟩, some "y"⟩], ["f", "main"]⟩ :
          GskSlProgram Unit String String) ⟨[], none⟩).calls
      = [.get_id_for_variable ⟨⟨"int", false, 0⟩, some "x"⟩,
          .get_id_for_variable ⟨⟨"int", false, 0⟩, some "y"⟩,
          .function_write_spv "f" 3, .function_write_spv "main" 4, .set_entry_point 4]
    ∧ ∃ (ids : List Nat) (rest : List (WriterCall String String)),
      ids.length = 2
      ∧ (gsk_sl_program_write_spv example_writer
          (⟨(), [⟨⟨"int", false, 0⟩, some "x"⟩, ⟨⟨"int", false, 0⟩, some "y"⟩],
            ["f", "main"]⟩ : GskSlProgram Unit String String) ⟨[], none⟩).calls
          = [] ++ [.get_id_for_variable ⟨⟨"int", false, 0⟩, some "x"⟩,
              .get_id_for_variable ⟨⟨"int", false, 0⟩, some "y"⟩] ++ rest
      ∧ rest.filter (fun c => !is_entry_point_registration c)
          = (["f", "main"].zip ids).map (fun p => .function_write_spv p.1 p.2)
      ∧ (∀ c ∈ rest, is_identifier_request c = false) :=
  ⟨by decide,
    (identifier_requests_precede_emissions (fun _ calls => calls.length + 1)
      (fun _ calls => calls.length + 1) id
      (⟨(), [⟨⟨"int", false, 0⟩, some "x"⟩, ⟨⟨"int", false, 0⟩, some "y"⟩], ["f", "main"]⟩ :
        GskSlProgram Unit String String) ⟨[], none⟩).imp
      fun _ h => h.imp fun _ h => ⟨h.1, h.2.2.1, h.2.2.2.1, h.2.2.2.2.1⟩⟩

/-- C11 fails as stated: for a Program with the variable `x` and the function
`main` the calls of `gsk_sl_program_write_spv` are not one identifier request
per Variable followed by one emission per Function, whatever identifiers the
emissions carry: a third call, the registration of the entry point, follows
the emission of `main`. -/
theorem calls_include_entry_point_registration :
    (gsk_sl_program_write_spv example_writer
        (⟨(), [⟨⟨"int", false, 0⟩, some "x"⟩], ["main"]⟩ : GskSlProgram Unit String String)
        ⟨[], none⟩).calls
      = [.get_id_for_variable ⟨⟨"int", false, 0⟩, some "x"⟩, .function_write_spv "main" 2,
          .set_entry_point 2]
    ∧ ¬ ∃ ids : List Nat,
        (gsk_sl_program_write_spv example_writer
          (⟨(), [⟨⟨"int", false, 0⟩, some "x"⟩], ["main"]⟩ : GskSlProgram Unit String String)
          ⟨[], none⟩).calls
        = [⟨⟨"int", false, 0⟩, some "x"⟩].map .get_id_for_variable
          ++ (["main"].zip ids).map (fun p => .function_write_spv p.1 p.2) := by
  have hc : (gsk_sl_program_write_spv example_writer
        (⟨(), [⟨⟨"int", false, 0⟩, some "x"⟩], ["main"]⟩ : GskSlProgram Unit String String)
        ⟨[], none⟩).calls
      = [.get_id_for_variable ⟨⟨"int", false, 0⟩, some "x"⟩, .function_write_spv "main" 2,
          .set_entry_point 2] := by decide
  refine ⟨hc, ?_⟩
  rintro ⟨ids, h⟩
  rw [hc] at h
  have hlen := congrArg List.length h
  cases ids with
  | nil => simp at hlen
  | cons i ids => simp at hlen

/-- C12, as amended: the module emitted by `gsk_sl_program_to_spirv` designates
an entry point, one and never more, if and only if the Program contains at
least one function whose name is exactly "main"; the entry point is then the
identifier that the emission of the last such function returned. -/
theorem entry_point_iff_some_main
    (variable_id : GskSlVariable τ → List (WriterCall τ φ) → Nat)
    (function_id : φ → List (WriterCall τ φ) → Nat) (name : φ → String)
    (program : GskSlProgram σ τ φ) :
    ((gsk_sl_program_to_spirv (tracing_writer variable_id function_id name)
          program).entry_point.isSome = true
        ↔ ∃ f ∈ program.functions, name f = "main")
    ∧ ∃ ids : List Nat, ids.length = program.functions.length
      ∧ (gsk_sl_program_to_spirv (tracing_writer variable_id function_id name)
            program).calls
          = program.vars.map .get_id_for_variable
            ++ ((program.functions.zip ids).map fun p => function_calls name p.1 p.2).flatten
      ∧ (gsk_sl_program_to_spirv (tracing_writer variable_id function_id name)
            program).entry_point
          = last_main name (program.functions.zip ids) := by
  obtain ⟨ids, hlen, hcalls, hentry⟩ := write_spv_trace variable_id function_id name program
    (tracing_writer variable_id function_id name).gsk_spv_writer_new
  have hnew : (tracing_writer variable_id function_id name).gsk_spv_writer_new
      = ⟨[], none⟩ := rfl
  rw [hnew] at hcalls hentry
  have e1 : (gsk_sl_program_to_spirv (tracing_writer variable_id function_id name)
      program).entry_point = last_main name (program.functions.zip ids) := by
    simpa [gsk_sl_program_to_spirv, tracing_writer] using hentry
  have e2 : (gsk_sl_program_to_spirv (tracing_writer variable_id function_id name)
      program).calls = program.vars.map .get_id_for_variable
        ++ ((program.functions.zip ids).map fun p => function_calls name p.1 p.2).flatten := by
    simpa [gsk_sl_program_to_spirv, tracing_writer] using hcalls
  refine ⟨?_, ids, hlen, e2, e1⟩
  rw [e1]
  simp only [last_main, Option.isSome_map']
  constructor
  · intro h
    cases hl : (program.functions.zip ids).filter fun p => decide (name p.1 = "main") with
    | nil => simp [hl] at h
    | cons p ps =>
      have hp : p ∈ (program.functions.zip ids).filter fun p => decide (name p.1 = "main") := by
        rw [hl]
        exact List.mem_cons_self _ _
      obtain ⟨hmem, hmain⟩ := List.mem_filter.mp hp
      exact ⟨p.1, (List.of_mem_zip hmem).1, by simpa using hmain⟩
  · rintro ⟨f, hf, hmain⟩
    obtain ⟨i, hi⟩ := exists_mem_zip program.functions ids hlen f hf
    have hp : (f, i) ∈ (program.functions.zip ids).filter
        fun p => decide (name p.1 = "main") :=
      List.mem_filter.mpr ⟨hi, by simpa using hmain⟩
    cases hl : (program.functions.zip ids).filter fun p => decide (name p.1 = "main") with
    | nil => rw [hl] at hp; cases hp
    | cons p ps => simp [List.getLast?_cons]

/-- C12, as amended, for a program with the functions `f`, `main`, `g`: the
entry point is the identifier of `main`. -/
theorem entry_point_iff_some_main_witness :
    (gsk_sl_program_to_spirv example_writer
        (⟨(), [], ["f", "main", "g"]⟩ : GskSlProgram Unit String String)).entry_point = some 2
    ∧ ((gsk_sl_program_to_spirv example_writer
          (⟨(), [], ["f", "main", "g"]⟩ : GskSlProgram Unit String String)).entry_point.isSome
          = true
        ↔ ∃ f ∈ ["f", "main", "g"], id f = "main") :=
  ⟨by decide, (entry_point_iff_some_main (fun _ calls => calls.length + 1)
    (fun _ calls => calls.length + 1) id
    (⟨(), [], ["f", "main", "g"]⟩ : GskSlProgram Unit String String)).1⟩

/-- C12 fails as stated: for a Program with two functions named "main" the
emitted module designates an entry point, the identifier of the second, although
the Program does not contain exactly one function named "main". -/
theorem two_mains_one_entry_point :
    (gsk_sl_program_to_spirv example_writer
        (⟨(), [], ["main", "main"]⟩ : GskSlProgram Unit String String)).entry_point = some 3
    ∧ ¬ ((gsk_sl_program_to_spirv example_writer
          (⟨(), [], ["main", "main"]⟩ : GskSlProgram Unit String String)).entry_point.isSome
          = true
        ↔ (["main", "main"].filter fun f => decide (f = "main")).length = 1) := by
  decide

/-- C13: `gsk_sl_program_write_spv` makes, after the identifier requests, for
every function in order its emission and, exactly when the function's name is
"main", directly after it the registration of the identifier which that
emission returned as entry point. So the registrations are those of the
functions named "main", in declaration order, and the writer's final entry
point is the identifier of the last function named "main" (the former entry
point when there is none). -/
theorem entry_point_registered_for_each_main
    (variable_id : GskSlVariable τ → List (WriterCall τ φ) → Nat)
    (function_id : φ → List (WriterCall τ φ) → Nat) (name : φ → String)
    (program : GskSlProgram σ τ φ) (writer : GskSpvWriter τ φ) :
    ∃ ids : List Nat, ids.length = program.functions.length
      ∧ (gsk_sl_program_write_spv (tracing_writer variable_id function_id name)
            program writer).calls
          = writer.calls ++ program.vars.map .get_id_for_variable
            ++ ((program.functions.zip ids).map fun p =>
                  (.function_write_spv p.1 p.2 : WriterCall τ φ)
                    :: (if name p.1 = "main" then [.set_entry_point p.2] else [])).flatten
      ∧ (((program.functions.zip ids).map fun p =>
              (function_calls name p.1 p.2 : List (WriterCall τ φ))).flatten).filter
            is_entry_point_registration
          = ((program.functions.zip ids).filter fun p => name p.1 = "main").map
              (fun p => .set_entry_point p.2)
      ∧ (gsk_sl_program_write_spv (tracing_writer variable_id function_id name)
            program writer).entry_point
          = (last_main name (program.functions.zip ids)).or writer.entry_point := by
  obtain ⟨ids, hlen, hcalls, hentry⟩ :=
    write_spv_trace variable_id function_id name program writer
  exact ⟨ids, hlen, hcalls, function_calls_registrations name _, hentry⟩

/-- C13 for a program with the functions `main`, `g`, `main`: two
registrations, each right after its emission, and the last one stays. -/
theorem entry_point_registered_for_each_main_witness :
    gsk_sl_program_write_spv example_writer
        (⟨(), [], ["main", "g", "main"]⟩ : GskSlProgram Unit String String) ⟨[], some 0⟩
      = ⟨[.function_write_spv "main" 1, .set_entry_point 1, .function_write_spv "g" 3,
            .function_write_spv "main" 4, .set_entry_point 4], some 4⟩
    ∧ ∃ ids : List Nat, ids.length = 3
      ∧ (gsk_sl_program_write_spv example_writer
          (⟨(), [], ["main", "g", "main"]⟩ : GskSlProgram Unit String String)
          ⟨[], some 0⟩).entry_point
        = (last_main id (["main", "g", "main"].zip ids)).or (some 0) :=
  ⟨by decide,
    (entry_point_registered_for_each_main (fun _ calls => calls.length + 1)
      (fun _ calls => calls.length + 1) id
      (⟨(), [], ["main", "g", "main"]⟩ : GskSlProgram Unit String String)
      ⟨[], some 0⟩).imp fun _ h => ⟨h.1, h.2.2.2⟩⟩


end GskSl
